import Mathlib

/-!
# Verification of the velodyne-rs packet decoder

Shallow embedding of the velodyne-rs core (packet parser, HDL-32/HDL-64
convertors, turn segmenter, pcap magic handling, HDL-64 status accumulator)
and proofs about the claims of the specification.

Conventions of the embedding:
* Machine integers (`u8`, `u16`, `u32`, `usize`) are modelled as `Nat`;
  little-endian reads are made explicit (`le16`, `le32`).
* Byte buffers are `List Nat`; fixed-size arrays of the status accumulator
  are modelled as total functions `Nat → Nat` updated pointwise.
* Floating point computations (xyz projection, intensity calibration,
  sin/cos calibration tables) are not modelled: no claim under scrutiny
  depends on them.  Emitted points carry the integer data that determines
  emission (laser id, raw distance, raw intensity, timestamp).
* Fallible operations return `Except Unit`/`Option`; a Rust `panic!` or a
  failed `assert!` is modelled as `Option.none` (or a dedicated outcome
  constructor for the pcap source).
-/

/-- Little-endian `u16` read (`LE::read_u16`). -/
def le16 (b0 b1 : Nat) : Nat := b0 + 256 * b1

/-- Little-endian `u32` read (`LE::read_u32`). -/
def le32 (b0 b1 b2 b3 : Nat) : Nat :=
  b0 + 256 * b1 + 65536 * b2 + 16777216 * b3

/-- Fuel-driven worker for `chunksExact`; the fuel is instantiated with the
length of the list, so it never runs out. -/
def chunksGo (n : Nat) : Nat → List Nat → List (List Nat)
  | 0, _ => []
  | fuel + 1, l =>
    if 0 < n ∧ n ≤ l.length then l.take n :: chunksGo n fuel (l.drop n) else []

/-- Model of Rust's `slice::chunks_exact(n)`: the list of full `n`-sized
chunks, the remainder dropped. -/
def chunksExact (n : Nat) (l : List Nat) : List (List Nat) :=
  chunksGo n l.length l

/-- `RawPoint` from `src/packet/mod.rs`: raw distance (u16), intensity (u8)
and position of the laser inside the block. -/
structure RawPoint where
  distance : Nat
  intensity : Nat
  laser : Nat
  deriving DecidableEq

/-- `StatusBytes` from `src/packet/mod.rs`. -/
structure StatusBytes where
  id : Nat
  value : Nat
  deriving DecidableEq

/-- `PacketMeta` from `src/packet/mod.rs`. -/
structure PacketMeta where
  azimuth : Nat
  timestamp : Nat
  status : StatusBytes
  deriving DecidableEq

/-- `get_status` from `src/packet/mod.rs`. -/
def get_status (data : List Nat) : StatusBytes :=
  { id := data.getD 1204 0, value := data.getD 1205 0 }

/-- The per-block point iterator of `parse_packet`:
`block[4..100].chunks_exact(3)`, enumerated, decoded as
(distance u16 LE, intensity u8), keeping only points with nonzero
distance. -/
def blockPoints (block : List Nat) : List RawPoint :=
  (((chunksExact 3 ((block.drop 4).take 96)).enum.map
      (fun ic => { distance := le16 (ic.2.getD 0 0) (ic.2.getD 1 0),
                   intensity := ic.2.getD 2 0,
                   laser := ic.1 : RawPoint })).filter
    (fun p => p.distance != 0))

/-- Decoding of one 100-byte block of `parse_packet`: 2-byte header,
little-endian u16 azimuth at offset 2, and the point iterator. -/
def parseBlock (block : List Nat) : (Nat × Nat) × Nat × List RawPoint :=
  ((block.getD 0 0, block.getD 1 0),
   le16 (block.getD 2 0) (block.getD 3 0),
   blockPoints block)

/-- `parse_packet` from `src/packet/mod.rs`: timestamp (u32 LE at 1200),
packet azimuth (u16 LE at offset 2), the 12 blocks
(`data[..1200].chunks_exact(100)`) and the trailing status byte pair. -/
def parse_packet (data : List Nat) :
    PacketMeta × List ((Nat × Nat) × Nat × List RawPoint) :=
  let timestamp := le32 (data.getD 1200 0) (data.getD 1201 0)
      (data.getD 1202 0) (data.getD 1203 0)
  let a0 := le16 (data.getD 2 0) (data.getD 3 0)
  let blocks := (chunksExact 100 (data.take 1200)).map parseBlock
  ({ azimuth := a0, timestamp := timestamp, status := get_status data }, blocks)

/-- Placeholder block used with `List.getD` when indexing the block list. -/
def emptyBlock : (Nat × Nat) × Nat × List RawPoint := ((0, 0), 0, [])

theorem chunksGo_length (n : Nat) (hn : 0 < n) :
    ∀ (fuel : Nat) (l : List Nat), l.length ≤ fuel →
      (chunksGo n fuel l).length = l.length / n := by
  intro fuel
  induction fuel with
  | zero =>
    intro l hl
    have h0 : l.length = 0 := Nat.le_zero.mp hl
    simp [chunksGo, h0]
  | succ f ih =>
    intro l hl
    by_cases hle : n ≤ l.length
    · have hdrop : (l.drop n).length ≤ f := by
        simp only [List.length_drop]
        omega
      simp only [chunksGo]
      rw [if_pos (show 0 < n ∧ n ≤ l.length from ⟨hn, hle⟩)]
      simp only [List.length_cons, ih _ hdrop, List.length_drop]
      rw [Nat.div_eq l.length n, if_pos (show 0 < n ∧ n ≤ l.length from ⟨hn, hle⟩)]
    · have hlt : l.length < n := Nat.lt_of_not_le hle
      simp only [chunksGo]
      rw [if_neg (by omega), Nat.div_eq_of_lt hlt]
      rfl

theorem chunksGo_getElem? (n : Nat) (hn : 0 < n) :
    ∀ (fuel : Nat) (l : List Nat) (i : Nat), l.length ≤ fuel →
      i < l.length / n →
      (chunksGo n fuel l)[i]? = some ((l.drop (n * i)).take n) := by
  intro fuel
  induction fuel with
  | zero =>
    intro l i hl hi
    have h0 : l.length = 0 := Nat.le_zero.mp hl
    rw [h0, Nat.zero_div] at hi
    omega
  | succ f ih =>
    intro l i hl hi
    have hle : n ≤ l.length := by
      by_contra hc
      have : l.length / n = 0 := Nat.div_eq_of_lt (by omega)
      omega
    have hdiv : l.length / n = (l.length - n) / n + 1 := by
      rw [Nat.div_eq l.length n, if_pos ⟨hn, hle⟩]
    simp only [chunksGo]
    rw [if_pos (show 0 < n ∧ n ≤ l.length from ⟨hn, hle⟩)]
    cases i with
    | zero =>
      simp
    | succ j =>
      have hdrop : (l.drop n).length ≤ f := by
        simp only [List.length_drop]; omega
      have hj : j < (l.drop n).length / n := by
        simp only [List.length_drop]
        omega
      rw [List.getElem?_cons_succ, ih _ j hdrop hj, List.drop_drop]
      congr 2
      ring_nf

theorem chunksExact_length (n : Nat) (hn : 0 < n) (l : List Nat) :
    (chunksExact n l).length = l.length / n :=
  chunksGo_length n hn l.length l le_rfl

theorem chunksExact_getElem? (n : Nat) (hn : 0 < n) (l : List Nat) (i : Nat)
    (hi : i < l.length / n) :
    (chunksExact n l)[i]? = some ((l.drop (n * i)).take n) :=
  chunksGo_getElem? n hn l.length l i le_rfl hi

/-- Bytes of chunk `i` of `chunksExact n l` are the bytes of `l` at stride
`n`. -/
theorem chunksExact_getD_getD (n : Nat) (hn : 0 < n) (l : List Nat)
    (i : Nat) (hi : i < l.length / n) (j : Nat) (hj : j < n) :
    ((chunksExact n l).getD i []).getD j 0 = l.getD (n * i + j) 0 := by
  have h1 := chunksExact_getElem? n hn l i hi
  have h2 : (chunksExact n l).getD i [] = (l.drop (n * i)).take n := by
    rw [List.getD_eq_getElem?_getD, h1]
    rfl
  rw [h2, List.getD_eq_getElem?_getD, List.getD_eq_getElem?_getD,
    List.getElem?_take_of_lt hj, List.getElem?_drop]

/-- Reading inside a `drop`/`take` slice is reading at an offset. -/
theorem slice_getD (l : List Nat) (a b j : Nat) (hj : j < b) :
    ((l.drop a).take b).getD j 0 = l.getD (a + j) 0 := by
  rw [List.getD_eq_getElem?_getD, List.getD_eq_getElem?_getD,
    List.getElem?_take_of_lt hj, List.getElem?_drop]

/-- Every raw point produced by the block iterator has `laser < 32`. -/
theorem blockPoints_laser_lt (block : List Nat) (p : RawPoint)
    (hp : p ∈ blockPoints block) : p.laser < 32 := by
  unfold blockPoints at hp
  rw [List.mem_filter] at hp
  obtain ⟨hmem, _⟩ := hp
  rw [List.mem_map] at hmem
  obtain ⟨x, hx, hfx⟩ := hmem
  rw [List.mem_enum_iff_getElem?] at hx
  have hx1 : x.1 < (chunksExact 3 ((block.drop 4).take 96)).length :=
    (List.getElem?_eq_some_iff.mp hx).1
  have hlen : (chunksExact 3 ((block.drop 4).take 96)).length ≤ 32 := by
    rw [chunksExact_length 3 (by omega)]
    have : ((block.drop 4).take 96).length ≤ 96 := by
      simp [List.length_take]
    omega
  have : p.laser = x.1 := by rw [← hfx]
  omega

/-- The block iterator yields at most 32 points. -/
theorem blockPoints_length_le (block : List Nat) :
    (blockPoints block).length ≤ 32 := by
  unfold blockPoints
  have h1 := List.length_filter_le
    (fun p : RawPoint => p.distance != 0)
    ((chunksExact 3 ((block.drop 4).take 96)).enum.map
      (fun ic => { distance := le16 (ic.2.getD 0 0) (ic.2.getD 1 0),
                   intensity := ic.2.getD 2 0,
                   laser := ic.1 : RawPoint }))
  have h2 : (chunksExact 3 ((block.drop 4).take 96)).length ≤ 32 := by
    rw [chunksExact_length 3 (by omega)]
    have : ((block.drop 4).take 96).length ≤ 96 := by
      simp [List.length_take]
    omega
  simpa using le_trans h1 (by simpa using h2)

/-- Characterisation of the points yielded by the iterator of a 100-byte
block: exactly the lasers `0..31` whose little-endian distance at stride 3
from offset 4 is nonzero. -/
theorem mem_blockPoints (block : List Nat) (hb : block.length = 100)
    (p : RawPoint) :
    p ∈ blockPoints block ↔
      p.laser < 32 ∧
      p.distance = le16 (block.getD (4 + 3 * p.laser) 0)
          (block.getD (5 + 3 * p.laser) 0) ∧
      p.intensity = block.getD (6 + 3 * p.laser) 0 ∧
      p.distance ≠ 0 := by
  have hs : ((block.drop 4).take 96).length = 96 := by
    simp [List.length_take, List.length_drop, hb]
  have hchunks : (chunksExact 3 ((block.drop 4).take 96)).length = 32 := by
    rw [chunksExact_length 3 (by omega), hs]
  constructor
  · intro hp
    unfold blockPoints at hp
    rw [List.mem_filter] at hp
    obtain ⟨hmem, hdist⟩ := hp
    rw [List.mem_map] at hmem
    obtain ⟨x, hx, hfx⟩ := hmem
    rw [List.mem_enum_iff_getElem?] at hx
    have hx1 : x.1 < 32 := by
      have := (List.getElem?_eq_some_iff.mp hx).1
      omega
    have hxc : x.2 = (((block.drop 4).take 96).drop (3 * x.1)).take 3 := by
      have := chunksExact_getElem? 3 (by omega) ((block.drop 4).take 96) x.1
        (by omega)
      rw [hx] at this
      exact Option.some.inj this
    have hlaser : p.laser = x.1 := by rw [← hfx]
    have hgetD : ∀ m, m < 3 →
        x.2.getD m 0 = block.getD (4 + 3 * x.1 + m) 0 := by
      intro m hm
      rw [hxc, slice_getD _ _ _ _ hm, slice_getD _ _ _ _ (by omega : 3 * x.1 + m < 96)]
      congr 1
      omega
    refine ⟨hlaser ▸ hx1, ?_, ?_, ?_⟩
    · have : p.distance = le16 (x.2.getD 0 0) (x.2.getD 1 0) := by rw [← hfx]
      rw [this, hgetD 0 (by omega), hgetD 1 (by omega), hlaser]
      congr 2 <;> omega
    · have : p.intensity = x.2.getD 2 0 := by rw [← hfx]
      rw [this, hgetD 2 (by omega), hlaser]
      congr 1
      omega
    · intro hzero
      rw [hzero] at hdist
      simp at hdist
  · rintro ⟨hlt, hdisteq, hinteq, hnz⟩
    unfold blockPoints
    rw [List.mem_filter]
    constructor
    · rw [List.mem_map]
      refine ⟨(p.laser, (((block.drop 4).take 96).drop (3 * p.laser)).take 3),
        ?_, ?_⟩
      · rw [List.mem_enum_iff_getElem?]
        exact chunksExact_getElem? 3 (by omega) _ p.laser (by omega)
      · have hgetD : ∀ m, m < 3 →
            ((((block.drop 4).take 96).drop (3 * p.laser)).take 3).getD m 0 =
              block.getD (4 + 3 * p.laser + m) 0 := by
          intro m hm
          rw [slice_getD _ _ _ _ hm,
            slice_getD _ _ _ _ (by omega : 3 * p.laser + m < 96)]
          congr 1
          omega
        cases p with
        | mk d int las =>
          simp only at hlt hdisteq hinteq hnz ⊢
          rw [hgetD 0 (by omega), hgetD 1 (by omega), hgetD 2 (by omega)]
          simp only [RawPoint.mk.injEq]
          refine ⟨?_, ?_, trivial⟩
          · rw [hdisteq]; congr 2 <;> omega
          · rw [hinteq]; congr 1; omega
    · simpa using hnz

/-- For a 1206-byte packet, block `i`'s raw bytes sit at stride 100. -/
theorem packet_block_bytes (data : List Nat) (h : data.length = 1206)
    (i : Nat) (hi : i < 12) :
    (parse_packet data).2.getD i emptyBlock =
      parseBlock (((data.take 1200).drop (100 * i)).take 100) := by
  have htake : (data.take 1200).length = 1200 := by
    simp [List.length_take, h]
  have hdiv : i < (data.take 1200).length / 100 := by rw [htake]; omega
  have hchunk := chunksExact_getElem? 100 (by omega) (data.take 1200) i hdiv
  show ((chunksExact 100 (data.take 1200)).map parseBlock).getD i emptyBlock = _
  rw [List.getD_eq_getElem?_getD, List.getElem?_map, hchunk]
  rfl

/-- Bytes of block `i` of a 1206-byte packet, as bytes of the packet. -/
theorem packet_block_getD (data : List Nat) (h : data.length = 1206)
    (i : Nat) (hi : i < 12) (j : Nat) (hj : j < 100) :
    (((data.take 1200).drop (100 * i)).take 100).getD j 0 =
      data.getD (100 * i + j) 0 := by
  rw [slice_getD _ _ _ _ hj, List.getD_eq_getElem?_getD,
    List.getD_eq_getElem?_getD, List.getElem?_take_of_lt (by omega)]

/-- C1: for every 1206-byte raw packet, `parse_packet` yields exactly 12
blocks at 100-byte stride from offset 0 (header at block offset 0, azimuth
u16 LE at block offset 2); each block's point iterator yields between 0 and
32 `RawPoint`s, reading the distance as little-endian u16 and the intensity
as the third byte at 3-byte stride from block offset 4, and omits every
point whose distance equals 0 — in particular it yields no point when all
distances of the block are zero. -/
theorem c1_parse_packet_blocks (data : List Nat) (h : data.length = 1206) :
    (parse_packet data).2.length = 12 ∧
    ∀ i, i < 12 →
      ((parse_packet data).2.getD i emptyBlock).1 =
          (data.getD (100 * i) 0, data.getD (100 * i + 1) 0) ∧
      ((parse_packet data).2.getD i emptyBlock).2.1 =
          le16 (data.getD (100 * i + 2) 0) (data.getD (100 * i + 3) 0) ∧
      ((parse_packet data).2.getD i emptyBlock).2.2.length ≤ 32 ∧
      (∀ p : RawPoint,
        p ∈ ((parse_packet data).2.getD i emptyBlock).2.2 ↔
          p.laser < 32 ∧
          p.distance = le16 (data.getD (100 * i + 4 + 3 * p.laser) 0)
              (data.getD (100 * i + 5 + 3 * p.laser) 0) ∧
          p.intensity = data.getD (100 * i + 6 + 3 * p.laser) 0 ∧
          p.distance ≠ 0) ∧
      ((∀ l, l < 32 →
          le16 (data.getD (100 * i + 4 + 3 * l) 0)
            (data.getD (100 * i + 5 + 3 * l) 0) = 0) →
        ((parse_packet data).2.getD i emptyBlock).2.2 = []) := by
  have htake : (data.take 1200).length = 1200 := by
    simp [List.length_take, h]
  constructor
  · show ((chunksExact 100 (data.take 1200)).map parseBlock).length = 12
    rw [List.length_map, chunksExact_length 100 (by omega), htake]
  · intro i hi
    have hblock := packet_block_bytes data h i hi
    set block := ((data.take 1200).drop (100 * i)).take 100 with hbdef
    have hblen : block.length = 100 := by
      simp [hbdef, List.length_take, List.length_drop, htake]
      omega
    have hbyte : ∀ j, j < 100 → block.getD j 0 = data.getD (100 * i + j) 0 :=
      fun j hj => packet_block_getD data h i hi j hj
    have hmem : ∀ p : RawPoint,
        p ∈ blockPoints block ↔
          p.laser < 32 ∧
          p.distance = le16 (data.getD (100 * i + 4 + 3 * p.laser) 0)
              (data.getD (100 * i + 5 + 3 * p.laser) 0) ∧
          p.intensity = data.getD (100 * i + 6 + 3 * p.laser) 0 ∧
          p.distance ≠ 0 := by
      intro p
      rw [mem_blockPoints block hblen p]
      constructor
      · rintro ⟨h1, h2, h3, h4⟩
        refine ⟨h1, ?_, ?_, h4⟩
        · rw [h2, hbyte _ (by omega), hbyte _ (by omega)]
          congr 2 <;> omega
        · rw [h3, hbyte _ (by omega)]
          congr 1
          omega
      · rintro ⟨h1, h2, h3, h4⟩
        refine ⟨h1, ?_, ?_, h4⟩
        · rw [h2, hbyte _ (by omega), hbyte _ (by omega)]
          congr 2 <;> omega
        · rw [h3, hbyte _ (by omega)]
          congr 1
          omega
    rw [hblock]
    refine ⟨?_, ?_, ?_, ?_, ?_⟩
    · show (block.getD 0 0, block.getD 1 0) = _
      rw [hbyte 0 (by omega), hbyte 1 (by omega)]
      norm_num
    · show le16 (block.getD 2 0) (block.getD 3 0) = _
      rw [hbyte 2 (by omega), hbyte 3 (by omega)]
    · exact blockPoints_length_le block
    · exact hmem
    · intro hall
      have : ∀ p : RawPoint, p ∉ blockPoints block := by
        intro p hp
        obtain ⟨h1, h2, h3, h4⟩ := (hmem p).mp hp
        exact h4 (h2.trans (hall p.laser h1))
      exact List.eq_nil_iff_forall_not_mem.mpr this

/-- Witness for C1 at the all-zero 1206-byte packet. -/
theorem c1_parse_packet_blocks_witness :
    (List.replicate 1206 0).length = 1206 ∧
    (parse_packet (List.replicate 1206 0)).2.length = 12 ∧
    ((parse_packet (List.replicate 1206 0)).2.getD 0 emptyBlock).2.2 = [] := by
  have h : (List.replicate 1206 (0 : Nat)).length = 1206 := by
    rw [List.length_replicate]
  have hrep : ∀ i, (List.replicate 1206 (0 : Nat)).getD i 0 = 0 := by
    intro i
    rw [List.getD_eq_getElem?_getD, List.getElem?_replicate]
    split <;> rfl
  have hc := c1_parse_packet_blocks (List.replicate 1206 0) h
  refine ⟨h, hc.1, ?_⟩
  have := (hc.2 0 (by omega)).2.2.2.2
  apply this
  intro l hl
  rw [hrep, hrep]
  rfl

/-- `ConversionError` from `src/lib.rs`. -/
inductive ConversionError
  | conversionError
  deriving DecidableEq

/-- The integer content of an emitted `FullPoint` (`src/lib.rs`): the global
laser id, the raw distance and intensity it was computed from, and the
packet timestamp.  The floating-point `xyz` projection is not modelled. -/
structure FullPointE where
  laser_id : Nat
  distance : Nat
  intensity : Nat
  timestamp : Nat
  deriving DecidableEq

/-- The shared per-block point loop of `Hdl32Convertor::convert`
(`src/hdl32.rs`, with `laser_id = raw_point.laser`, i.e. `delta = 0`) and
`Hdl64Convertor::convert` (`src/hdl64/convertor.rs`, with
`laser_id = raw_point.laser + laser_delta`): the double-return filter over
the per-laser distance cache, emitting the surviving points in order. -/
def processPoints (timestamp azimuth prevAzimuth delta : Nat)
    (cache : Nat → Nat) :
    List RawPoint → ((Nat → Nat) × List FullPointE)
  | [] => (cache, [])
  | p :: rest =>
    let laser_id := p.laser + delta
    if azimuth = prevAzimuth ∧ cache laser_id = p.distance then
      processPoints timestamp azimuth prevAzimuth delta
        (Function.update cache laser_id 0) rest
    else
      let r := processPoints timestamp azimuth prevAzimuth delta
        (Function.update cache laser_id p.distance) rest
      (r.1, { laser_id := laser_id, distance := p.distance,
              intensity := p.intensity, timestamp := timestamp } :: r.2)

/-- The block loop of `Hdl32Convertor::convert`: only header `FF EE` is
accepted; on a bad header the conversion stops with an error.  The emitted
points collected so far model the calls already made to the sink `f`. -/
def hdl32ConvertBlocks (timestamp : Nat) (cache : Nat → Nat)
    (prevAzimuth : Nat) :
    List ((Nat × Nat) × Nat × List RawPoint) → List FullPointE × Bool
  | [] => ([], false)
  | b :: rest =>
    if b.1 ≠ (255, 238) then ([], true)
    else
      let r := processPoints timestamp b.2.1 prevAzimuth 0 cache b.2.2
      let rec1 := hdl32ConvertBlocks timestamp r.1 b.2.1 rest
      (r.2 ++ rec1.1, rec1.2)

/-- Header dispatch of `Hdl64Convertor::convert`: `FF EE` selects laser
delta 0, `FF DD` selects laser delta 32, anything else is an error. -/
def hdl64LaserDelta (header : Nat × Nat) : Option Nat :=
  if header = (255, 238) then some 0
  else if header = (255, 221) then some 32
  else none

/-- The block loop of `Hdl64Convertor::convert`. -/
def hdl64ConvertBlocks (timestamp : Nat) (cache : Nat → Nat)
    (prevAzimuth : Nat) :
    List ((Nat × Nat) × Nat × List RawPoint) → List FullPointE × Bool
  | [] => ([], false)
  | b :: rest =>
    match hdl64LaserDelta b.1 with
    | none => ([], true)
    | some delta =>
      let r := processPoints timestamp b.2.1 prevAzimuth delta cache b.2.2
      let rec1 := hdl64ConvertBlocks timestamp r.1 b.2.1 rest
      (r.2 ++ rec1.1, rec1.2)

/-- `Hdl32Convertor::convert` (`src/hdl32.rs`): parse the packet, run the
block loop with a zeroed 32-slot cache and `prev_azimuth = u16::MAX`.
The first component lists the points passed to the sink (also when the
conversion later fails), the second is the `Result`. -/
def hdl32Convert (data : List Nat) :
    List FullPointE × Except ConversionError PacketMeta :=
  let parsed := parse_packet data
  let r := hdl32ConvertBlocks parsed.1.timestamp (fun _ => 0) 65535 parsed.2
  (r.1, if r.2 then Except.error ConversionError.conversionError
        else Except.ok parsed.1)

/-- `Hdl64Convertor::convert` (`src/hdl64/convertor.rs`): same loop with a
64-slot cache and the header-dependent laser delta. -/
def hdl64Convert (data : List Nat) :
    List FullPointE × Except ConversionError PacketMeta :=
  let parsed := parse_packet data
  let r := hdl64ConvertBlocks parsed.1.timestamp (fun _ => 0) 65535 parsed.2
  (r.1, if r.2 then Except.error ConversionError.conversionError
        else Except.ok parsed.1)

/-- Every point emitted by the point loop originates from a raw point of the
block, with `laser_id = laser + delta` and the raw distance/intensity. -/
theorem processPoints_mem (timestamp azimuth prevAzimuth delta : Nat) :
    ∀ (pts : List RawPoint) (cache : Nat → Nat) (q : FullPointE),
      q ∈ (processPoints timestamp azimuth prevAzimuth delta cache pts).2 →
      ∃ p ∈ pts, q.laser_id = p.laser + delta ∧ q.distance = p.distance ∧
        q.intensity = p.intensity ∧ q.timestamp = timestamp := by
  intro pts
  induction pts with
  | nil => intro cache q hq; simp [processPoints] at hq
  | cons p rest ih =>
    intro cache q hq
    rw [processPoints] at hq
    by_cases hc : azimuth = prevAzimuth ∧ cache (p.laser + delta) = p.distance
    · rw [if_pos hc] at hq
      obtain ⟨p', hp', hrest⟩ := ih _ q hq
      exact ⟨p', List.mem_cons_of_mem _ hp', hrest⟩
    · rw [if_neg hc] at hq
      rcases List.mem_cons.mp hq with heq | hmem
      · subst heq
        exact ⟨p, List.mem_cons_self _ _, rfl, rfl, rfl, rfl⟩
      · obtain ⟨p', hp', hrest⟩ := ih _ q hmem
        exact ⟨p', List.mem_cons_of_mem _ hp', hrest⟩

/-- Every point emitted by the HDL-64 block loop comes from some block with
a valid header, shifted by that header's laser delta. -/
theorem hdl64ConvertBlocks_mem (timestamp : Nat) :
    ∀ (blocks : List ((Nat × Nat) × Nat × List RawPoint))
      (cache : Nat → Nat) (prevAzimuth : Nat) (q : FullPointE),
      q ∈ (hdl64ConvertBlocks timestamp cache prevAzimuth blocks).1 →
      ∃ b ∈ blocks, ∃ delta, hdl64LaserDelta b.1 = some delta ∧
        ∃ p ∈ b.2.2, q.laser_id = p.laser + delta := by
  intro blocks
  induction blocks with
  | nil => intro cache prevAzimuth q hq; simp [hdl64ConvertBlocks] at hq
  | cons b rest ih =>
    intro cache prevAzimuth q hq
    rw [hdl64ConvertBlocks] at hq
    cases hdelta : hdl64LaserDelta b.1 with
    | none => rw [hdelta] at hq; simp at hq
    | some delta =>
      rw [hdelta] at hq
      simp only [List.mem_append] at hq
      rcases hq with hq | hq
      · obtain ⟨p, hp, hlid, _⟩ := processPoints_mem _ _ _ _ _ _ _ hq
        exact ⟨b, List.mem_cons_self _ _, delta, hdelta, p, hp, hlid⟩
      · obtain ⟨b', hb', hrest⟩ := ih _ _ q hq
        exact ⟨b', List.mem_cons_of_mem _ hb', hrest⟩

/-- Every point emitted by the HDL-32 block loop comes from some block, with
`laser_id` equal to the raw block-local laser index. -/
theorem hdl32ConvertBlocks_mem (timestamp : Nat) :
    ∀ (blocks : List ((Nat × Nat) × Nat × List RawPoint))
      (cache : Nat → Nat) (prevAzimuth : Nat) (q : FullPointE),
      q ∈ (hdl32ConvertBlocks timestamp cache prevAzimuth blocks).1 →
      ∃ b ∈ blocks, ∃ p ∈ b.2.2, q.laser_id = p.laser := by
  intro blocks
  induction blocks with
  | nil => intro cache prevAzimuth q hq; simp [hdl32ConvertBlocks] at hq
  | cons b rest ih =>
    intro cache prevAzimuth q hq
    rw [hdl32ConvertBlocks] at hq
    by_cases hh : b.1 ≠ (255, 238)
    · rw [if_pos hh] at hq; simp at hq
    · rw [if_neg hh] at hq
      simp only [List.mem_append] at hq
      rcases hq with hq | hq
      · obtain ⟨p, hp, hlid, _⟩ := processPoints_mem _ _ _ _ _ _ _ hq
        exact ⟨b, List.mem_cons_self _ _, p, hp, by omega⟩
      · obtain ⟨b', hb', hrest⟩ := ih _ _ q hq
        exact ⟨b', List.mem_cons_of_mem _ hb', hrest⟩

/-- Every raw point of every parsed block has `laser < 32`. -/
theorem parse_packet_laser_lt (data : List Nat) :
    ∀ b ∈ (parse_packet data).2, ∀ p ∈ b.2.2, p.laser < 32 := by
  intro b hb p hp
  have hb' : b ∈ (chunksExact 100 (data.take 1200)).map parseBlock := hb
  rw [List.mem_map] at hb'
  obtain ⟨chunk, _, hchunk⟩ := hb'
  subst hchunk
  exact blockPoints_laser_lt chunk p hp

/-- If a case of `hdl64LaserDelta` succeeds, the header was one of the two
valid ones and the delta is the corresponding laser offset. -/
theorem hdl64LaserDelta_cases (header : Nat × Nat) (delta : Nat)
    (h : hdl64LaserDelta header = some delta) :
    (header = (255, 238) ∧ delta = 0) ∨ (header = (255, 221) ∧ delta = 32) := by
  unfold hdl64LaserDelta at h
  by_cases h1 : header = (255, 238)
  · rw [if_pos h1] at h
    exact Or.inl ⟨h1, (Option.some.inj h).symm⟩
  · rw [if_neg h1] at h
    by_cases h2 : header = (255, 221)
    · rw [if_pos h2] at h
      exact Or.inr ⟨h2, (Option.some.inj h).symm⟩
    · rw [if_neg h2] at h
      exact absurd h (by simp)

/-- If the HDL-32 block loop finishes without error, every header was
`FF EE`. -/
theorem hdl32ConvertBlocks_ok (timestamp : Nat) :
    ∀ (blocks : List ((Nat × Nat) × Nat × List RawPoint))
      (cache : Nat → Nat) (prevAzimuth : Nat),
      (hdl32ConvertBlocks timestamp cache prevAzimuth blocks).2 = false →
      ∀ b ∈ blocks, b.1 = (255, 238) := by
  intro blocks
  induction blocks with
  | nil => intro cache prevAzimuth _ b hb; simp at hb
  | cons b0 rest ih =>
    intro cache prevAzimuth herr b hb
    rw [hdl32ConvertBlocks] at herr
    by_cases hh : b0.1 ≠ (255, 238)
    · rw [if_pos hh] at herr
      simp at herr
    · rw [if_neg hh] at herr
      rcases List.mem_cons.mp hb with heq | hmem
      · subst heq; exact not_not.mp hh
      · exact ih _ _ herr b hmem

/-- C3: on every 1206-byte packet, each point emitted by
`Hdl64Convertor::convert` carries `laser_id = block_local_laser + 0` for a
block with header `FF EE` and `laser_id = block_local_laser + 32` for a
block with header `FF DD`, so every emitted `laser_id` is below 64;
`Hdl32Convertor::convert` emits `laser_id = block_local_laser`, below 32,
and succeeds only when every block header is `FF EE`. -/
theorem c3_laser_id_range (data : List Nat) (h : data.length = 1206) :
    (∀ q ∈ (hdl64Convert data).1, q.laser_id < 64) ∧
    (∀ q ∈ (hdl32Convert data).1, q.laser_id < 32) ∧
    (∀ q ∈ (hdl64Convert data).1, ∃ b ∈ (parse_packet data).2, ∃ p ∈ b.2.2,
        (b.1 = (255, 238) ∧ q.laser_id = p.laser + 0) ∨
        (b.1 = (255, 221) ∧ q.laser_id = p.laser + 32)) ∧
    ((∃ m, (hdl32Convert data).2 = Except.ok m) →
        ∀ b ∈ (parse_packet data).2, b.1 = (255, 238)) := by
  have h64 : ∀ q ∈ (hdl64Convert data).1,
      ∃ b ∈ (parse_packet data).2, ∃ p ∈ b.2.2,
        (b.1 = (255, 238) ∧ q.laser_id = p.laser + 0) ∨
        (b.1 = (255, 221) ∧ q.laser_id = p.laser + 32) := by
    intro q hq
    obtain ⟨b, hb, delta, hdelta, p, hp, hlid⟩ :=
      hdl64ConvertBlocks_mem _ _ _ _ q hq
    rcases hdl64LaserDelta_cases _ _ hdelta with ⟨hh, hd⟩ | ⟨hh, hd⟩
    · exact ⟨b, hb, p, hp, Or.inl ⟨hh, by omega⟩⟩
    · exact ⟨b, hb, p, hp, Or.inr ⟨hh, by omega⟩⟩
  refine ⟨?_, ?_, h64, ?_⟩
  · intro q hq
    obtain ⟨b, hb, p, hp, hcase⟩ := h64 q hq
    have hl := parse_packet_laser_lt data b hb p hp
    rcases hcase with ⟨_, hlid⟩ | ⟨_, hlid⟩ <;> omega
  · intro q hq
    obtain ⟨b, hb, p, hp, hlid⟩ := hdl32ConvertBlocks_mem _ _ _ _ q hq
    have hl := parse_packet_laser_lt data b hb p hp
    omega
  · rintro ⟨m, hm⟩ b hb
    simp only [hdl32Convert] at hm
    by_cases herr : (hdl32ConvertBlocks (parse_packet data).1.timestamp
        (fun _ => 0) 65535 (parse_packet data).2).2 = true
    · rw [if_pos herr] at hm
      exact absurd hm (by simp)
    · have hfalse : (hdl32ConvertBlocks (parse_packet data).1.timestamp
          (fun _ => 0) 65535 (parse_packet data).2).2 = false := by
        revert herr
        cases (hdl32ConvertBlocks (parse_packet data).1.timestamp
          (fun _ => 0) 65535 (parse_packet data).2).2 <;> simp
      exact hdl32ConvertBlocks_ok _ _ _ _ hfalse b hb

/-- Concrete 1206-byte packet: block 0 has header `FF EE`, azimuth 0 and one
point (laser 0, distance 1, intensity 7); block 1 has the invalid header
`00 00`; everything else is zero. -/
def badHeaderPkt : List Nat :=
  [255, 238, 0, 0, 1, 0, 7] ++ List.replicate 1199 0

/-- If some block has an invalid HDL-64 header, the block loop errors. -/
theorem hdl64ConvertBlocks_err (timestamp : Nat) :
    ∀ (blocks : List ((Nat × Nat) × Nat × List RawPoint))
      (cache : Nat → Nat) (prevAzimuth : Nat),
      (∃ b ∈ blocks, hdl64LaserDelta b.1 = none) →
      (hdl64ConvertBlocks timestamp cache prevAzimuth blocks).2 = true := by
  intro blocks
  induction blocks with
  | nil =>
    intro cache prevAzimuth hex
    obtain ⟨b, hb, _⟩ := hex
    simp at hb
  | cons b0 rest ih =>
    intro cache prevAzimuth hex
    rw [hdl64ConvertBlocks]
    cases hdelta : hdl64LaserDelta b0.1 with
    | none => rfl
    | some delta =>
      obtain ⟨b, hb, hbad⟩ := hex
      rcases List.mem_cons.mp hb with heq | hmem
      · subst heq
        rw [hdelta] at hbad
        exact absurd hbad (by simp)
      · exact ih _ _ ⟨b, hmem, hbad⟩

/-- Running the HDL-64 block loop on a list that splits as `pre ++ bad ::
rest`, with every block of `pre` carrying a valid header and `bad` an
invalid one, yields exactly the points of the run over `pre` alone (with
the same cache threading) together with the error flag: nothing of `bad`
or of any later block is emitted. -/
theorem hdl64ConvertBlocks_firstInvalid (timestamp : Nat) :
    ∀ (pre : List ((Nat × Nat) × Nat × List RawPoint))
      (bad : (Nat × Nat) × Nat × List RawPoint)
      (rest : List ((Nat × Nat) × Nat × List RawPoint))
      (cache : Nat → Nat) (prevAzimuth : Nat),
      (∀ b ∈ pre, (hdl64LaserDelta b.1).isSome = true) →
      hdl64LaserDelta bad.1 = none →
      hdl64ConvertBlocks timestamp cache prevAzimuth (pre ++ bad :: rest) =
        ((hdl64ConvertBlocks timestamp cache prevAzimuth pre).1, true) := by
  intro pre
  induction pre with
  | nil =>
    intro bad rest cache prevAzimuth _ hbad
    show hdl64ConvertBlocks timestamp cache prevAzimuth (bad :: rest) = _
    simp only [hdl64ConvertBlocks, hbad]
  | cons b pre' ih =>
    intro bad rest cache prevAzimuth hpre hbad
    have hb := hpre b (List.mem_cons_self _ _)
    cases hdelta : hdl64LaserDelta b.1 with
    | none => rw [hdelta] at hb; simp at hb
    | some delta =>
      have hih := ih bad rest
        (processPoints timestamp b.2.1 prevAzimuth delta cache b.2.2).1 b.2.1
        (fun x hx => hpre x (List.mem_cons_of_mem _ hx)) hbad
      rw [List.cons_append, hdl64ConvertBlocks, hdelta]
      conv_rhs => rw [hdl64ConvertBlocks, hdelta]
      dsimp only
      rw [hih]

/-- C4 (amended): a packet containing a block with an invalid HDL-64 header
makes `Hdl64Convertor::convert` return the conversion error.  Splitting the
block list at the first invalid block (`pre` valid, `bad` invalid), the
list of points passed to the sink is exactly the emission of the loop over
`pre` alone — so the points of the valid blocks preceding the first
invalid one are emitted in full before the error is returned, while no
point of the invalid block or of any later block ever reaches the sink;
the sink is invoked zero times whenever the blocks before the first
invalid one emit no point, in particular whenever none of them carries a
raw point, and in particular when the invalid block is the first block
of the packet. -/
theorem c4_invalid_header_amended (data : List Nat) :
    ((∃ b ∈ (parse_packet data).2, hdl64LaserDelta b.1 = none) →
      (hdl64Convert data).2 = Except.error ConversionError.conversionError) ∧
    (∀ (pre : List ((Nat × Nat) × Nat × List RawPoint))
       (bad : (Nat × Nat) × Nat × List RawPoint)
       (rest : List ((Nat × Nat) × Nat × List RawPoint)),
      (parse_packet data).2 = pre ++ bad :: rest →
      (∀ b ∈ pre, (hdl64LaserDelta b.1).isSome = true) →
      hdl64LaserDelta bad.1 = none →
      (hdl64Convert data).1 =
        (hdl64ConvertBlocks (parse_packet data).1.timestamp
          (fun _ => 0) 65535 pre).1 ∧
      (∀ q ∈ (hdl64Convert data).1, ∃ b ∈ pre, ∃ delta,
        hdl64LaserDelta b.1 = some delta ∧
        ∃ p ∈ b.2.2, q.laser_id = p.laser + delta) ∧
      ((hdl64ConvertBlocks (parse_packet data).1.timestamp
          (fun _ => 0) 65535 pre).1 = [] → (hdl64Convert data).1 = []) ∧
      ((∀ b ∈ pre, b.2.2 = []) → (hdl64Convert data).1 = [])) := by
  have hconv : hdl64Convert data =
      ((hdl64ConvertBlocks (parse_packet data).1.timestamp (fun _ => 0) 65535
          (parse_packet data).2).1,
       if (hdl64ConvertBlocks (parse_packet data).1.timestamp (fun _ => 0) 65535
          (parse_packet data).2).2 = true
       then Except.error ConversionError.conversionError
       else Except.ok (parse_packet data).1) := rfl
  constructor
  · intro hex
    have herr := hdl64ConvertBlocks_err (parse_packet data).1.timestamp
      (parse_packet data).2 (fun _ => 0) 65535 hex
    rw [hconv]
    show (if _ = true then _ else _) = _
    rw [if_pos herr]
  · intro pre bad rest hsplit hpre hbad
    have hfi := hdl64ConvertBlocks_firstInvalid (parse_packet data).1.timestamp
      pre bad rest (fun _ => 0) 65535 hpre hbad
    have h1 : (hdl64Convert data).1 =
        (hdl64ConvertBlocks (parse_packet data).1.timestamp
          (fun _ => 0) 65535 pre).1 := by
      rw [hconv]
      show (hdl64ConvertBlocks _ _ _ (parse_packet data).2).1 = _
      rw [hsplit, hfi]
    have h2 : ∀ q ∈ (hdl64Convert data).1, ∃ b ∈ pre, ∃ delta,
        hdl64LaserDelta b.1 = some delta ∧
        ∃ p ∈ b.2.2, q.laser_id = p.laser + delta := by
      intro q hq
      rw [h1] at hq
      exact hdl64ConvertBlocks_mem _ pre _ _ q hq
    refine ⟨h1, h2, ?_, ?_⟩
    · intro hnil
      rw [h1, hnil]
    · intro hempty
      rw [h1]
      by_contra hne
      obtain ⟨q, hq⟩ := List.exists_mem_of_ne_nil _ hne
      obtain ⟨b, hb, delta, hdelta, p, hp', _⟩ :=
        hdl64ConvertBlocks_mem _ pre _ _ q hq
      rw [hempty b hb] at hp'
      simp at hp'

set_option maxRecDepth 100000 in
/-- C4 counterexample: on `badHeaderPkt` (valid first block with one point,
invalid second block) the conversion returns the error, yet one point was
already passed to the sink — refuting "the sink callback is invoked zero
times for that packet". -/
theorem c4_counterexample :
    (hdl64Convert badHeaderPkt).2 =
        Except.error ConversionError.conversionError ∧
    (hdl64Convert badHeaderPkt).1.length = 1 := by
  constructor
  · rfl
  · rfl

set_option maxRecDepth 100000 in
/-- Witness for C4 (amended) at the all-zero packet: its first block already
has the invalid header `00 00`, so the split has an empty valid part, the
error is returned and the sink is never invoked. -/
theorem c4_invalid_header_amended_witness :
    (hdl64Convert (List.replicate 1206 0)).1 = [] ∧
    (hdl64Convert (List.replicate 1206 0)).2 =
        Except.error ConversionError.conversionError := by
  have h := c4_invalid_header_amended (List.replicate 1206 0)
  have hsplit : (parse_packet (List.replicate 1206 0)).2 =
      emptyBlock :: List.replicate 11 emptyBlock := by decide
  constructor
  · exact (h.2 [] emptyBlock (List.replicate 11 emptyBlock) hsplit
      (by intro b hb; simp at hb) (by decide)).2.2.2
      (by intro b hb; simp at hb)
  · refine h.1 ⟨emptyBlock, ?_, by decide⟩
    rw [hsplit]
    exact List.mem_cons_self _ _

set_option maxRecDepth 100000 in
/-- Witness for C3 at `badHeaderPkt`: the emitted point of the valid block
has `laser_id < 64`, and there is exactly one such point. -/
theorem c3_laser_id_range_witness :
    badHeaderPkt.length = 1206 ∧
    (∀ q ∈ (hdl64Convert badHeaderPkt).1, q.laser_id < 64) ∧
    (hdl64Convert badHeaderPkt).1.length = 1 := by
  have hlen : badHeaderPkt.length = 1206 := by decide
  exact ⟨hlen, (c3_laser_id_range badHeaderPkt hlen).1, rfl⟩

/-- The turn-crossing test of `TurnIterator::next` (`src/lib.rs` lines
244-252): given previous and current packet azimuths and the configured
split azimuth, decide whether the split line was crossed. -/
def turnCrossing (prevAzimuth azimuth splitAzimuth : Nat) : Bool :=
  if prevAzimuth > azimuth then
    !(decide (prevAzimuth ≥ splitAzimuth) && decide (splitAzimuth > azimuth))
  else
    decide (azimuth ≥ splitAzimuth) && decide (splitAzimuth > prevAzimuth)

/-- `TurnIterator::set_split_azimuth` (`src/lib.rs`): stores `val % 36000`. -/
def set_split_azimuth (val : Nat) : Nat := val % 36000

/-- C5: for every pair of consecutive packet azimuths with `prev ≠ curr`
and split azimuth `s`, the crossing test of `TurnIterator::next` fires on a
wrap (`prev > curr`) unless `prev ≥ s > curr`, and otherwise fires iff
`curr ≥ s > prev`; `set_split_azimuth v` stores `v % 36000`; and with split
azimuth 0 a turn is cut exactly when the azimuth wraps (`prev > curr`). -/
theorem c5_turn_crossing (prev curr s v : Nat) (hne : prev ≠ curr) :
    (prev > curr →
      (turnCrossing prev curr s = true ↔ ¬(prev ≥ s ∧ s > curr))) ∧
    (¬(prev > curr) →
      (turnCrossing prev curr s = true ↔ (curr ≥ s ∧ s > prev))) ∧
    set_split_azimuth v = v % 36000 ∧
    (turnCrossing prev curr 0 = true ↔ prev > curr) := by
  refine ⟨?_, ?_, rfl, ?_⟩
  · intro hgt
    unfold turnCrossing
    rw [if_pos hgt]
    simp
    omega
  · intro hle
    unfold turnCrossing
    rw [if_neg hle]
    simp
  · unfold turnCrossing
    by_cases hgt : prev > curr
    · rw [if_pos hgt]
      simp
      omega
    · rw [if_neg hgt]
      simp
      omega

/-- Witness for C5 at `prev = 35900`, `curr = 100`, `s = 18000`, `v = 36001`. -/
theorem c5_turn_crossing_witness :
    (35900 > 100 →
      (turnCrossing 35900 100 18000 = true ↔ ¬(35900 ≥ 18000 ∧ 18000 > 100))) ∧
    (¬(35900 > 100) →
      (turnCrossing 35900 100 18000 = true ↔ (100 ≥ 18000 ∧ 18000 > 35900))) ∧
    set_split_azimuth 36001 = 36001 % 36000 ∧
    (turnCrossing 35900 100 0 = true ↔ 35900 > 100) :=
  c5_turn_crossing 35900 100 18000 36001 (by decide)

/-- Outcome of the magic-number dispatch in `PcapSource::new`
(`src/packet/pcap.rs` lines 41-51): the four known magics select endianness
and time resolution, an unknown magic returns an `InvalidInput` error, and
a recognised big-endian magic reaches the `panic!` call. -/
inductive PcapNewOutcome
  | proceeds (isNano : Bool)
  | errInvalidMagic
  | panicsBigEndian
  deriving DecidableEq

/-- The magic-number check of `PcapSource::new`: match the `u32` against the
four known values; unknown values return the invalid-magic error; the two
big-endian values take `is_le = false` and then hit
`panic!("Big-endian pcap files currently not supported.")`. -/
def pcapNewMagicStep (magic : Nat) : PcapNewOutcome :=
  if magic = 0xa1b2c3d4 then PcapNewOutcome.proceeds false
  else if magic = 0xa1b23c4d then PcapNewOutcome.proceeds true
  else if magic = 0xd4c3b2a1 then PcapNewOutcome.panicsBigEndian
  else if magic = 0x4d3cb2a1 then PcapNewOutcome.panicsBigEndian
  else PcapNewOutcome.errInvalidMagic

/-- C9 counterexample: for the big-endian magic `0xd4c3b2a1`,
`PcapSource::new` panics — it does not return an error value to the caller
as the claim states. -/
theorem c9_counterexample :
    pcapNewMagicStep 0xd4c3b2a1 = PcapNewOutcome.panicsBigEndian ∧
    ∀ isNano, pcapNewMagicStep 0xd4c3b2a1 ≠ PcapNewOutcome.proceeds isNano ∧
      pcapNewMagicStep 0xd4c3b2a1 ≠ PcapNewOutcome.errInvalidMagic := by
  decide

/-- C9 (amended): a big-endian magic (`0xd4c3b2a1` or `0x4d3cb2a1`) makes
`PcapSource::new` panic (it is not returned as an error value); any magic
outside the four known values yields the invalid-pcap-magic error. -/
theorem c9_pcap_magic_amended (magic : Nat) :
    (pcapNewMagicStep magic = PcapNewOutcome.panicsBigEndian ↔
      (magic = 0xd4c3b2a1 ∨ magic = 0x4d3cb2a1)) ∧
    (pcapNewMagicStep magic = PcapNewOutcome.errInvalidMagic ↔
      (magic ≠ 0xa1b2c3d4 ∧ magic ≠ 0xa1b23c4d ∧
       magic ≠ 0xd4c3b2a1 ∧ magic ≠ 0x4d3cb2a1)) := by
  unfold pcapNewMagicStep
  constructor
  · constructor
    · intro h
      by_cases h1 : magic = 0xa1b2c3d4
      · rw [if_pos h1] at h; exact absurd h (by decide)
      · rw [if_neg h1] at h
        by_cases h2 : magic = 0xa1b23c4d
        · rw [if_pos h2] at h; exact absurd h (by decide)
        · rw [if_neg h2] at h
          by_cases h3 : magic = 0xd4c3b2a1
          · exact Or.inl h3
          · rw [if_neg h3] at h
            by_cases h4 : magic = 0x4d3cb2a1
            · exact Or.inr h4
            · rw [if_neg h4] at h; exact absurd h (by decide)
    · rintro (h | h) <;> subst h <;> decide
  · constructor
    · intro h
      refine ⟨?_, ?_, ?_, ?_⟩ <;> intro heq <;> subst heq <;>
        exact absurd h (by decide)
    · rintro ⟨h1, h2, h3, h4⟩
      rw [if_neg h1, if_neg h2, if_neg h3, if_neg h4]

/-- Witness for C9 (amended) at the nanosecond big-endian magic. -/
theorem c9_pcap_magic_amended_witness :
    (pcapNewMagicStep 0x4d3cb2a1 = PcapNewOutcome.panicsBigEndian ↔
      ((0x4d3cb2a1 : Nat) = 0xd4c3b2a1 ∨ (0x4d3cb2a1 : Nat) = 0x4d3cb2a1)) ∧
    (pcapNewMagicStep 0x4d3cb2a1 = PcapNewOutcome.errInvalidMagic ↔
      ((0x4d3cb2a1 : Nat) ≠ 0xa1b2c3d4 ∧ (0x4d3cb2a1 : Nat) ≠ 0xa1b23c4d ∧
       (0x4d3cb2a1 : Nat) ≠ 0xd4c3b2a1 ∧ (0x4d3cb2a1 : Nat) ≠ 0x4d3cb2a1)) :=
  c9_pcap_magic_amended 0x4d3cb2a1

/-- The number of points with a given laser id emitted by the point loop is
bounded by the number of raw points mapping to that laser id. -/
theorem processPoints_countP_le (t az pa delta lid : Nat) :
    ∀ (pts : List RawPoint) (cache : Nat → Nat),
      ((processPoints t az pa delta cache pts).2.countP
          (fun q => q.laser_id == lid)) ≤
        pts.countP (fun p => p.laser + delta == lid) := by
  intro pts
  induction pts with
  | nil => intro cache; simp [processPoints]
  | cons p rest ih =>
    intro cache
    rw [processPoints]
    by_cases hc : az = pa ∧ cache (p.laser + delta) = p.distance
    · rw [if_pos hc]
      calc ((processPoints t az pa delta
              (Function.update cache (p.laser + delta) 0) rest).2.countP
            (fun q => q.laser_id == lid)) ≤
          rest.countP (fun p => p.laser + delta == lid) := ih _
        _ ≤ (p :: rest).countP (fun p => p.laser + delta == lid) := by
            rw [List.countP_cons]; omega
    · rw [if_neg hc]
      simp only [List.countP_cons]
      have := ih (Function.update cache (p.laser + delta) p.distance)
      omega

/-- With pairwise-distinct lasers, at most one raw point of a block maps to
any given laser id. -/
theorem countP_laser_nodup (delta lid : Nat) :
    ∀ (pts : List RawPoint), (pts.map RawPoint.laser).Nodup →
      pts.countP (fun p => p.laser + delta == lid) ≤ 1 := by
  intro pts
  induction pts with
  | nil => intro _; simp
  | cons p rest ih =>
    intro hnd
    rw [List.map_cons, List.nodup_cons] at hnd
    obtain ⟨hnotin, hnd'⟩ := hnd
    rw [List.countP_cons]
    by_cases hl : p.laser + delta = lid
    · have hzero : rest.countP (fun p => p.laser + delta == lid) = 0 := by
        rw [List.countP_eq_zero]
        intro p' hp' hbeq
        have : p'.laser + delta = lid := by simpa using hbeq
        have : p'.laser = p.laser := by omega
        exact hnotin (this ▸ List.mem_map_of_mem RawPoint.laser hp')
      simp [hzero, hl]
    · have : (p.laser + delta == lid) = false := by simpa using hl
      rw [this]
      simpa using ih hnd'

/-- Cache slots whose laser id appears in no raw point are untouched by the
point loop. -/
theorem processPoints_cache_untouched (t az pa delta s : Nat) :
    ∀ (pts : List RawPoint) (cache : Nat → Nat),
      (∀ p ∈ pts, p.laser + delta ≠ s) →
      (processPoints t az pa delta cache pts).1 s = cache s := by
  intro pts
  induction pts with
  | nil => intro cache _; rfl
  | cons p rest ih =>
    intro cache hs
    have hps : s ≠ p.laser + delta :=
      Ne.symm (hs p (List.mem_cons_self _ _))
    have hrest : ∀ p' ∈ rest, p'.laser + delta ≠ s :=
      fun p' hp' => hs p' (List.mem_cons_of_mem _ hp')
    rw [processPoints]
    by_cases hc : az = pa ∧ cache (p.laser + delta) = p.distance
    · rw [if_pos hc, ih _ hrest, Function.update_noteq hps]
    · rw [if_neg hc]
      show (processPoints t az pa delta
          (Function.update cache (p.laser + delta) p.distance) rest).1 s =
        cache s
      rw [ih _ hrest, Function.update_noteq hps]

/-- If the point loop emitted the point of laser `p₀` (lasers of the block
pairwise distinct), the final cache holds that point's distance in the
slot of `p₀`'s laser id. -/
theorem processPoints_cache_of_emitted (t az pa delta : Nat) :
    ∀ (pts : List RawPoint) (cache : Nat → Nat) (p₀ : RawPoint),
      (pts.map RawPoint.laser).Nodup → p₀ ∈ pts →
      0 < (processPoints t az pa delta cache pts).2.countP
          (fun q => q.laser_id == p₀.laser + delta) →
      (processPoints t az pa delta cache pts).1 (p₀.laser + delta) =
        p₀.distance := by
  intro pts
  induction pts with
  | nil => intro cache p₀ _ hmem; simp at hmem
  | cons p rest ih =>
    intro cache p₀ hnd hmem hpos
    rw [List.map_cons, List.nodup_cons] at hnd
    obtain ⟨hnotin, hnd'⟩ := hnd
    by_cases hll : p.laser = p₀.laser
    · have hp0 : p₀ = p := by
        rcases List.mem_cons.mp hmem with h | h
        · exact h
        · exact absurd (hll ▸ List.mem_map_of_mem RawPoint.laser h) hnotin
      subst hp0
      have hrest : ∀ p' ∈ rest, p'.laser + delta ≠ p₀.laser + delta := by
        intro p' hp' heq
        have hpe : p'.laser = p₀.laser := by omega
        exact hnotin (hpe ▸ List.mem_map_of_mem RawPoint.laser hp')
      rw [processPoints] at hpos ⊢
      by_cases hc : az = pa ∧ cache (p₀.laser + delta) = p₀.distance
      · rw [if_pos hc] at hpos ⊢
        exfalso
        obtain ⟨q, hq, hbeq⟩ := List.countP_pos_iff.mp hpos
        obtain ⟨p', hp', hlid, _⟩ := processPoints_mem _ _ _ _ _ _ _ hq
        have hqe : q.laser_id = p₀.laser + delta := by simpa using hbeq
        exact hrest p' hp' (by omega)
      · rw [if_neg hc]
        show (processPoints t az pa delta
            (Function.update cache (p₀.laser + delta) p₀.distance) rest).1
            (p₀.laser + delta) = p₀.distance
        rw [processPoints_cache_untouched t az pa delta _ rest _ hrest,
          Function.update_same]
    · have hp0rest : p₀ ∈ rest := by
        rcases List.mem_cons.mp hmem with h | h
        · subst h; exact absurd rfl hll
        · exact h
      rw [processPoints] at hpos ⊢
      by_cases hc : az = pa ∧ cache (p.laser + delta) = p.distance
      · rw [if_pos hc] at hpos ⊢
        exact ih _ p₀ hnd' hp0rest hpos
      · rw [if_neg hc] at hpos ⊢
        show (processPoints t az pa delta
            (Function.update cache (p.laser + delta) p.distance) rest).1
            (p₀.laser + delta) = p₀.distance
        have hpos' : 0 < (processPoints t az pa delta
            (Function.update cache (p.laser + delta) p.distance) rest).2.countP
              (fun q => q.laser_id == p₀.laser + delta) := by
          simp only [List.countP_cons] at hpos
          have hbeqf : ((⟨p.laser + delta, p.distance, p.intensity, t⟩ :
              FullPointE).laser_id == p₀.laser + delta) = false := by
            simp only [beq_eq_false_iff_ne, ne_eq]
            show ¬(p.laser + delta = p₀.laser + delta)
            omega
          rw [hbeqf] at hpos
          simpa using hpos
        exact ih _ p₀ hnd' hp0rest hpos'

/-- Second block of a same-azimuth pair: if for every raw point of laser id
`lid` the cache already holds its distance, no point of laser id `lid` is
emitted (the azimuth equals the previous azimuth). -/
theorem processPoints_suppress_all (t az delta lid : Nat) :
    ∀ (pts : List RawPoint) (cache : Nat → Nat),
      (pts.map RawPoint.laser).Nodup →
      (∀ p ∈ pts, p.laser + delta = lid → cache lid = p.distance) →
      (processPoints t az az delta cache pts).2.countP
          (fun q => q.laser_id == lid) = 0 := by
  intro pts
  induction pts with
  | nil => intro cache _ _; rfl
  | cons p rest ih =>
    intro cache hnd hcache
    rw [List.map_cons, List.nodup_cons] at hnd
    obtain ⟨hnotin, hnd'⟩ := hnd
    rw [processPoints]
    by_cases hl : p.laser + delta = lid
    · have hc : az = az ∧ cache (p.laser + delta) = p.distance :=
        ⟨rfl, by rw [hl]; exact hcache p (List.mem_cons_self _ _) hl⟩
      rw [if_pos hc]
      rw [List.countP_eq_zero]
      intro q hq hbeq
      obtain ⟨p', hp', hlid, _⟩ := processPoints_mem _ _ _ _ _ _ _ hq
      have hqe : q.laser_id = lid := by simpa using hbeq
      have hpe : p'.laser = p.laser := by omega
      exact hnotin (hpe ▸ List.mem_map_of_mem RawPoint.laser hp')
    · have hrest : ∀ p' ∈ rest, p'.laser + delta = lid →
          Function.update cache (p.laser + delta) p.distance lid =
            p'.distance := by
        intro p' hp' hl'
        rw [Function.update_noteq (show lid ≠ p.laser + delta from
          fun hx => hl hx.symm)]
        exact hcache p' (List.mem_cons_of_mem _ hp') hl'
      have hrest0 : ∀ p' ∈ rest, p'.laser + delta = lid →
          Function.update cache (p.laser + delta) 0 lid = p'.distance := by
        intro p' hp' hl'
        rw [Function.update_noteq (show lid ≠ p.laser + delta from
          fun hx => hl hx.symm)]
        exact hcache p' (List.mem_cons_of_mem _ hp') hl'
      by_cases hc : az = az ∧ cache (p.laser + delta) = p.distance
      · rw [if_pos hc]
        exact ih _ hnd' hrest0
      · rw [if_neg hc]
        show ((⟨p.laser + delta, p.distance, p.intensity, t⟩ : FullPointE) ::
            (processPoints t az az delta
              (Function.update cache (p.laser + delta) p.distance)
              rest).2).countP (fun q => q.laser_id == lid) = 0
        rw [List.countP_cons]
        have hbeqf : ((⟨p.laser + delta, p.distance, p.intensity, t⟩ :
            FullPointE).laser_id == lid) = false := by
          simp only [beq_eq_false_iff_ne, ne_eq]
          show ¬(p.laser + delta = lid)
          exact hl
        rw [hbeqf]
        simp only [Bool.false_eq_true, if_false, Nat.add_zero]
        exact ih _ hnd' hrest

/-- C2: for the per-point loop shared by `Hdl32Convertor::convert` and
`Hdl64Convertor::convert` (the HDL-32 instance is `delta = 0`):
a point is suppressed, with its cache slot zeroed, if and only if the block
azimuth equals the previous block azimuth and the distance equals the
cached distance for its laser id; otherwise the slot is updated to the
distance and the point is emitted.  Consequently, for two consecutive
blocks at the same azimuth with identical per-laser distances, at most one
point per laser id is emitted across the pair. -/
theorem c2_double_return_filter :
    (∀ (t az pa delta : Nat) (c : Nat → Nat) (p : RawPoint)
        (rest : List RawPoint),
      (az = pa ∧ c (p.laser + delta) = p.distance →
        processPoints t az pa delta c (p :: rest) =
          processPoints t az pa delta
            (Function.update c (p.laser + delta) 0) rest) ∧
      (¬(az = pa ∧ c (p.laser + delta) = p.distance) →
        processPoints t az pa delta c (p :: rest) =
          ((processPoints t az pa delta
              (Function.update c (p.laser + delta) p.distance) rest).1,
           (⟨p.laser + delta, p.distance, p.intensity, t⟩ : FullPointE) ::
             (processPoints t az pa delta
               (Function.update c (p.laser + delta) p.distance) rest).2))) ∧
    (∀ (t az pa delta : Nat) (c : Nat → Nat) (pts pts' : List RawPoint)
        (lid : Nat),
      (pts.map RawPoint.laser).Nodup →
      pts'.map (fun p => (p.laser, p.distance)) =
        pts.map (fun p => (p.laser, p.distance)) →
      ((processPoints t az pa delta c pts).2 ++
        (processPoints t az az delta
          (processPoints t az pa delta c pts).1 pts').2).countP
            (fun q => q.laser_id == lid) ≤ 1) := by
  constructor
  · intro t az pa delta c p rest
    constructor
    · intro hc
      rw [processPoints, if_pos hc]
    · intro hc
      rw [processPoints, if_neg hc]
  · intro t az pa delta c pts pts' lid hnd hmap
    have hlasers : pts'.map RawPoint.laser = pts.map RawPoint.laser := by
      have h1 : (pts'.map (fun p => (p.laser, p.distance))).map Prod.fst =
          (pts.map (fun p => (p.laser, p.distance))).map Prod.fst := by
        rw [hmap]
      rw [List.map_map, List.map_map] at h1
      exact h1
    have hnd' : (pts'.map RawPoint.laser).Nodup := by rw [hlasers]; exact hnd
    rw [List.countP_append]
    by_cases hpos : 0 < (processPoints t az pa delta c pts).2.countP
        (fun q => q.laser_id == lid)
    · obtain ⟨q, hq, hbeq⟩ := List.countP_pos_iff.mp hpos
      obtain ⟨p₀, hp₀, hlid, hdist, _⟩ := processPoints_mem _ _ _ _ _ _ _ hq
      have hqlid : q.laser_id = lid := by simpa using hbeq
      have hlid0 : lid = p₀.laser + delta := by omega
      subst hlid0
      have hcache := processPoints_cache_of_emitted t az pa delta pts c p₀
        hnd hp₀ hpos
      have hzero : (processPoints t az az delta
          (processPoints t az pa delta c pts).1 pts').2.countP
            (fun q => q.laser_id == p₀.laser + delta) = 0 := by
        apply processPoints_suppress_all t az delta (p₀.laser + delta) pts' _
          hnd'
        intro p' hp' hl'
        have hpair : (p'.laser, p'.distance) ∈
            pts.map (fun p => (p.laser, p.distance)) := by
          rw [← hmap]
          exact List.mem_map_of_mem _ hp'
        rw [List.mem_map] at hpair
        obtain ⟨p'', hp'', hpe⟩ := hpair
        have hl2 : p''.laser = p'.laser := congrArg Prod.fst hpe
        have hd2 : p''.distance = p'.distance := congrArg Prod.snd hpe
        have hpp : p'' = p₀ :=
          List.inj_on_of_nodup_map hnd hp'' hp₀
            (show p''.laser = p₀.laser by omega)
        rw [hcache, ← hpp, hd2]
      have hone : (processPoints t az pa delta c pts).2.countP
          (fun q => q.laser_id == p₀.laser + delta) ≤ 1 :=
        le_trans (processPoints_countP_le t az pa delta (p₀.laser + delta)
          pts c) (countP_laser_nodup delta (p₀.laser + delta) pts hnd)
      omega
    · have h1 : (processPoints t az pa delta c pts).2.countP
          (fun q => q.laser_id == lid) = 0 := by omega
      have h2 : (processPoints t az az delta
          (processPoints t az pa delta c pts).1 pts').2.countP
            (fun q => q.laser_id == lid) ≤ 1 :=
        le_trans (processPoints_countP_le t az az delta lid pts' _)
          (countP_laser_nodup delta lid pts' hnd')
      omega

/-- Witness for C2: two one-point blocks at azimuth 7 with the same laser
and distance; at most one point survives the pair. -/
theorem c2_double_return_filter_witness :
    ((processPoints 0 7 65535 0 (fun _ => 0)
        [⟨5, 9, 0⟩]).2 ++
      (processPoints 0 7 7 0
        (processPoints 0 7 65535 0 (fun _ => 0) [⟨5, 9, 0⟩]).1
        [⟨5, 4, 0⟩]).2).countP (fun q => q.laser_id == 0) ≤ 1 :=
  c2_double_return_filter.2 0 7 65535 0 (fun _ => 0)
    [⟨5, 9, 0⟩] [⟨5, 4, 0⟩] 0 (by decide) (by decide)

/-- `GpsStatus` from `src/hdl64/status_types.rs` as used by the
accumulator. -/
inductive GpsStatus
  | syncNmea
  | nmeaOnly
  | syncOnly
  | notConnected
  deriving DecidableEq

/-- `ReturnType` from `src/hdl64/status_types.rs`. -/
inductive ReturnType
  | strongest
  | last
  | both
  deriving DecidableEq

/-- `PowerLevel` from `src/hdl64/status_types.rs`. -/
inductive PowerLevel
  | autoNormalized
  | autoRaw
  | manual (level : Nat)
  deriving DecidableEq

/-- A calendar date-time as produced by `get_dt`
(`chrono::DateTime<Utc>` in the source). -/
structure DateE where
  year : Nat
  month : Nat
  day : Nat
  hour : Nat
  minute : Nat
  second : Nat
  deriving DecidableEq

/-- The integer/enum fields of `Status` (`src/hdl64/status_types.rs`). -/
structure Status where
  dt : DateE
  gps : GpsStatus
  temperature : Nat
  version : Nat
  lens_contamination : Bool
  hot : Bool
  cold : Bool
  pps : Bool
  gps_time : Bool
  rpm : Nat
  fov_start : Nat
  fov_end : Nat
  real_life_time : Nat
  ip_source : Nat × Nat × Nat × Nat
  ip_dest : Nat × Nat × Nat × Nat
  return_type : ReturnType
  power_level : PowerLevel
  humidity : Nat
  upper_threshold : Nat
  lower_threshold : Nat
  calib_dt : DateE
  deriving DecidableEq

/-- Gregorian leap-year / month-length rule, used to model the calendar
validation delegated to the `chrono` crate. -/
def daysInMonth (y m : Nat) : Nat :=
  if m = 1 ∨ m = 3 ∨ m = 5 ∨ m = 7 ∨ m = 8 ∨ m = 10 ∨ m = 12 then 31
  else if m = 4 ∨ m = 6 ∨ m = 9 ∨ m = 11 then 30
  else if m = 2 then
    (if y % 4 = 0 ∧ (y % 100 ≠ 0 ∨ y % 400 = 0) then 29 else 28)
  else 0

/-- `get_dt` from `src/hdl64/status_accum.rs`: year offset 2000; the
validity check (`NaiveDate::from_ymd_opt` / `and_hms_opt` of the `chrono`
crate) is month 1..12, day within the month, hour < 24, minute < 60,
second < 60.  `none` models `Err("Incorrect datetime")`. -/
def get_dt (year month day h m s : Nat) : Option DateE :=
  let y := year + 2000
  if 1 ≤ month ∧ month ≤ 12 ∧ 1 ≤ day ∧ day ≤ daysInMonth y month ∧
      h < 24 ∧ m < 60 ∧ s < 60 then
    some ⟨y, month, day, h, m, s⟩
  else
    none

/-- `CycleState` from `src/hdl64/status_accum.rs`. -/
inductive CycleState
  | firstCycle
  | lasers (laser part : Nat)
  | calibrationDt
  | sensorState (part : Nat)
  deriving DecidableEq

/-- `StatusAccumulator` from `src/hdl64/status_accum.rs`.  The fixed-size
byte arrays (`dt: [u8; 6]`, `cycle_ids/values: [u8; 7]`,
`lasers: [[u8; 21]; 64]`, `sensor_state: [u8; 21]`) are modelled as total
functions updated pointwise. -/
structure StatusAccumulator where
  init : Bool
  dt : Nat → Nat
  gps_val : Nat
  temp_val : Nat
  version_val : Nat
  cycle_ids : Nat → Nat
  cycle_values : Nat → Nat
  cycle_pos : Nat
  cycle_state : CycleState
  lasers : Nat → Nat → Nat
  sensor_state : Nat → Nat

/-- `copy_from_slice` of the 7 cycle values into a buffer at offset `s`. -/
def copy7 (f : Nat → Nat) (s : Nat) (vals : Nat → Nat) : Nat → Nat :=
  fun j => if s ≤ j ∧ j < s + 7 then vals (j - s) else f j

/-- `StatusAccumulator::process_warning`: decode the five health bits
(bits 0, 1, 2, 5, 6 of the warning byte). -/
def process_warning (b : Nat) (st : Status) : Status :=
  { st with
    lens_contamination := decide (b % 2 ≠ 0),
    hot := decide (b / 2 % 2 ≠ 0),
    cold := decide (b / 4 % 2 ≠ 0),
    pps := decide (b / 32 % 2 ≠ 0),
    gps_time := decide (b / 64 % 2 ≠ 0) }

/-- `StatusAccumulator::update_status`: commit datetime, GPS status,
temperature and firmware version; the boolean result is `true` when the
function returned an error (invalid datetime or unknown GPS code), in
which case status fields after the failing one stay untouched. -/
def update_status (a : StatusAccumulator) (st : Status) : Status × Bool :=
  match get_dt (a.dt 0) (a.dt 1) (a.dt 2) (a.dt 3) (a.dt 4) (a.dt 5) with
  | none => (st, true)
  | some d =>
    let st := { st with dt := d }
    if a.gps_val = 65 then
      ({ st with gps := GpsStatus.syncNmea, temperature := a.temp_val,
                 version := a.version_val }, false)
    else if a.gps_val = 86 then
      ({ st with gps := GpsStatus.nmeaOnly, temperature := a.temp_val,
                 version := a.version_val }, false)
    else if a.gps_val = 80 then
      ({ st with gps := GpsStatus.syncOnly, temperature := a.temp_val,
                 version := a.version_val }, false)
    else if a.gps_val = 0 then
      ({ st with gps := GpsStatus.notConnected, temperature := a.temp_val,
                 version := a.version_val }, false)
    else
      (st, true)

/-- The return-mode decoding of byte 16 in
`StatusAccumulator::process_full_cycle`. -/
def rtDecode (v : Nat) : Option ReturnType :=
  if v = 0 then some ReturnType.strongest
  else if v = 1 then some ReturnType.last
  else if v = 2 then some ReturnType.both
  else none

/-- The power-level decoding of byte 18 in
`StatusAccumulator::process_full_cycle` (`v & 0x0f` is `v % 16`,
`(v & 0xf0) >> 4` is `v / 16 % 16` for a byte). -/
def plDecode (v : Nat) : Option PowerLevel :=
  if v = 0xA8 then some PowerLevel.autoNormalized
  else if v = 0xA0 then some PowerLevel.autoRaw
  else if v % 16 = 8 ∧ v / 16 % 16 < 8 then some (PowerLevel.manual (v / 16 % 16))
  else none

/-- The `assert_eq!(data[0] as usize, i)` loop of
`StatusAccumulator::process_calib_db`: `false` models the panic of a failed
assertion.  (The floating-point calibration values written into the
`CalibDb` are not modelled; no claim depends on them.) -/
def processCalibDbOk (a : StatusAccumulator) : Bool :=
  (List.range 64).all (fun i => a.lasers i 0 == i)

/-- `StatusAccumulator::process_full_cycle`: sets `init` to `true` first
(the Rust `if !self.init { self.init = true }` has exactly this effect),
then decodes the 21-byte sensor-state buffer into `Status`, field by field,
returning early (with the fields decoded so far already committed) when the
return-mode byte 16 or the power-level byte 18 is invalid; on full success
it runs `process_calib_db`.  `none` models the assertion panic inside
`process_calib_db`; the `Bool` is `true` when the function returned an
error. -/
def process_full_cycle (a : StatusAccumulator) (st : Status) :
    Option (StatusAccumulator × Status × Bool) :=
  let a := { a with init := true }
  let d := a.sensor_state
  let st := { st with
    rpm := le16 (d 0) (d 1), fov_start := le16 (d 2) (d 3),
    fov_end := le16 (d 4) (d 5), real_life_time := le16 (d 6) (d 7),
    ip_source := (d 8, d 9, d 10, d 11),
    ip_dest := (d 12, d 13, d 14, d 15) }
  match rtDecode (d 16) with
  | none => some (a, st, true)
  | some rt =>
    let st := { st with return_type := rt }
    match plDecode (d 18) with
    | none => some (a, st, true)
    | some pl =>
      let st := { st with power_level := pl }
      if processCalibDbOk a then some (a, st, false) else none

/-- Comparison of the 7 accumulated ids against an expected pattern. -/
def ids7 (ids : Nat → Nat) (b0 b1 b2 b3 b4 b5 b6 : Nat) : Bool :=
  (ids 0 == b0) && (ids 1 == b1) && (ids 2 == b2) && (ids 3 == b3) &&
  (ids 4 == b4) && (ids 5 == b5) && (ids 6 == b6)

/-- Result of `StatusAccumulator::consume_cycle`: `Ok(true)`, `Ok(false)`
(out-of-order cycle) or `Err(_)`. -/
inductive ConsumeRes
  | okTrue
  | okFalse
  | errRes
  deriving DecidableEq

/-- `StatusAccumulator::consume_cycle`: checks the accumulated 7 id/value
pairs against the active high-level state and advances it.  On `okFalse`
and `errRes` the `cycle_state` field is left unchanged (the Rust early
`return` skips the `self.cycle_state = ...` assignment); the caller
(`feed`) then resets it.  `none` models the assertion panic reachable
through `process_full_cycle`, and the index-out-of-bounds panic of
`self.lasers.0[laser]` when `laser ≥ 64` ( `laser as u8` is modelled as
`laser % 256`). -/
def consume_cycle (a : StatusAccumulator) (st : Status) :
    Option (StatusAccumulator × Status × ConsumeRes) :=
  let ids := a.cycle_ids
  let vals := a.cycle_values
  match a.cycle_state with
  | CycleState.firstCycle =>
    if ids7 ids 49 50 51 52 53 247 246 then
      if (vals 0 == 85) && (vals 1 == 78) && (vals 2 == 73) &&
          (vals 3 == 84) && (vals 4 == 35) then
        some ({ a with cycle_state := CycleState.lasers 0 0 },
          { st with upper_threshold := vals 5, lower_threshold := vals 6 },
          ConsumeRes.okTrue)
      else some (a, st, ConsumeRes.okFalse)
    else some (a, st, ConsumeRes.okFalse)
  | CycleState.lasers laser part =>
    if part ≤ 2 then
      if ids7 ids 49 50 51 52 53 54 55 then
        if part = 0 ∧ vals 0 ≠ laser % 256 then some (a, st, ConsumeRes.okFalse)
        else if a.init = false ∧ 64 ≤ laser then none
        else
          let a := if a.init = false then
              { a with lasers := fun i =>
                  if i = laser then copy7 (a.lasers laser) (7 * part) vals
                  else a.lasers i }
            else a
          let newState := if laser = 63 ∧ part = 2 then CycleState.calibrationDt
            else CycleState.lasers laser (part + 1)
          some ({ a with cycle_state := newState }, st, ConsumeRes.okTrue)
      else some (a, st, ConsumeRes.okFalse)
    else if part = 3 then
      if ids7 ids 87 50 51 52 53 54 55 then
        some ({ a with cycle_state := CycleState.lasers (laser + 1) 0 },
          process_warning (vals 0) st, ConsumeRes.okTrue)
      else some (a, st, ConsumeRes.okFalse)
    else some (a, st, ConsumeRes.errRes)
  | CycleState.calibrationDt =>
    if ids7 ids 49 50 51 52 53 54 55 then
      match get_dt (vals 0) (vals 1) (vals 2) (vals 3) (vals 4) (vals 5) with
      | none => some (a, st, ConsumeRes.errRes)
      | some d =>
        some ({ a with cycle_state := CycleState.sensorState 0 },
          { st with calib_dt := d, humidity := vals 6 }, ConsumeRes.okTrue)
    else some (a, st, ConsumeRes.okFalse)
  | CycleState.sensorState part =>
    if part = 0 then
      if ids7 ids 254 255 252 253 250 251 55 then
        some ({ a with sensor_state := copy7 a.sensor_state 0 vals,
                       cycle_state := CycleState.sensorState 1 },
          st, ConsumeRes.okTrue)
      else some (a, st, ConsumeRes.okFalse)
    else if part = 1 then
      if ids7 ids 49 50 51 52 53 54 55 then
        some ({ a with sensor_state := copy7 a.sensor_state 7 vals,
                       cycle_state := CycleState.sensorState 2 },
          st, ConsumeRes.okTrue)
      else some (a, st, ConsumeRes.okFalse)
    else if part = 2 then
      if ids7 ids 49 50 249 52 248 54 55 then
        let a := { a with sensor_state := copy7 a.sensor_state 14 vals }
        match process_full_cycle a st with
        | none => none
        | some (a', st', e) =>
          if e then some (a', st', ConsumeRes.errRes)
          else some ({ a' with cycle_state := CycleState.firstCycle }, st',
            ConsumeRes.okTrue)
      else some (a, st, ConsumeRes.okFalse)
    else some (a, st, ConsumeRes.errRes)

/-- The per-id staging writes at the top of `StatusAccumulator::feed`
(performed before the position check) together with the `is_ok`
position test. -/
def feedStage (sb : StatusBytes) (a : StatusAccumulator) :
    StatusAccumulator × Bool :=
  if sb.id = 72 then
    ({ a with dt := Function.update a.dt 3 sb.value }, a.cycle_pos == 0)
  else if sb.id = 77 then
    ({ a with dt := Function.update a.dt 4 sb.value }, a.cycle_pos == 1)
  else if sb.id = 83 then
    ({ a with dt := Function.update a.dt 5 sb.value }, a.cycle_pos == 2)
  else if sb.id = 68 then
    ({ a with dt := Function.update a.dt 2 sb.value }, a.cycle_pos == 3)
  else if sb.id = 78 then
    ({ a with dt := Function.update a.dt 1 sb.value }, a.cycle_pos == 4)
  else if sb.id = 89 then
    ({ a with dt := Function.update a.dt 0 sb.value }, a.cycle_pos == 5)
  else if sb.id = 71 then
    ({ a with gps_val := sb.value }, a.cycle_pos == 6)
  else if sb.id = 84 then
    ({ a with temp_val := sb.value }, a.cycle_pos == 7)
  else if sb.id = 86 then
    ({ a with version_val := sb.value }, a.cycle_pos == 8)
  else
    (a, decide (8 < a.cycle_pos) && decide (a.cycle_pos < 16))

/-- The position-8 commit step of `feed`: at mini-cycle position 8 run
`update_status`; on its failure the high-level state is reset to
`FirstCycle` (the partially updated status is kept). -/
def feedCommit8 (a : StatusAccumulator) (st0 : Status) :
    StatusAccumulator × Status :=
  if a.cycle_pos = 8 then
    match update_status a st0 with
    | (st', true) => ({ a with cycle_state := CycleState.firstCycle }, st')
    | (st', false) => (a, st')
  else (a, st0)

/-- The tail of `feed` after staging and the position-8 commit: advance the
position, record the id/value pair at positions 9..15 and consume the
accumulated cycle at position 15 (resetting the high-level state when the
consume step fails or reports an out-of-order cycle). -/
def feedTail (sb : StatusBytes) (a : StatusAccumulator) (st : Status) :
    Option (StatusAccumulator × Status) :=
  if a.cycle_pos ≤ 8 then some ({ a with cycle_pos := a.cycle_pos + 1 }, st)
  else
    let a := { a with
      cycle_ids := Function.update a.cycle_ids (a.cycle_pos - 9) sb.id,
      cycle_values := Function.update a.cycle_values (a.cycle_pos - 9) sb.value }
    if a.cycle_pos = 15 then
      match consume_cycle a st with
      | none => none
      | some (a', st', ConsumeRes.okTrue) =>
          some ({ a' with cycle_pos := 0 }, st')
      | some (a', st', ConsumeRes.okFalse) =>
          some ({ a' with cycle_state := CycleState.firstCycle,
                          cycle_pos := 0 }, st')
      | some (a', st', ConsumeRes.errRes) =>
          some ({ a' with cycle_state := CycleState.firstCycle,
                          cycle_pos := 0 }, st')
    else some ({ a with cycle_pos := a.cycle_pos + 1 }, st)

/-- `StatusAccumulator::feed` (`src/hdl64/status_accum.rs`): stage the byte,
reset only the mini-cycle position on a wrong position, then run the
position-8 commit and the tail.  `none` models a panic (see
`consume_cycle`). -/
def feed (sb : StatusBytes) (a0 : StatusAccumulator) (st0 : Status) :
    Option (StatusAccumulator × Status) :=
  let s := feedStage sb a0
  if s.2 = false then some ({ s.1 with cycle_pos := 0 }, st0)
  else
    let r := feedCommit8 s.1 st0
    feedTail sb r.1 r.2

/-- Iterated feeding of a sequence of status byte pairs. -/
def feedAll (l : List StatusBytes) (a : StatusAccumulator) (st : Status) :
    Option (StatusAccumulator × Status) :=
  match l with
  | [] => some (a, st)
  | sb :: rest =>
    match feed sb a st with
    | none => none
    | some (a', st') => feedAll rest a' st'

/-- `StatusAccumulator::default()`. -/
def accum0 : StatusAccumulator where
  init := false
  dt := fun _ => 0
  gps_val := 0
  temp_val := 0
  version_val := 0
  cycle_ids := fun _ => 0
  cycle_values := fun _ => 0
  cycle_pos := 0
  cycle_state := CycleState.firstCycle
  lasers := fun _ _ => 0
  sensor_state := fun _ => 0

/-- `default_sensor_status()` from `src/hdl64/status_accum.rs`. -/
def status0 : Status where
  dt := ⟨2000, 1, 1, 0, 0, 0⟩
  gps := GpsStatus.notConnected
  temperature := 0
  version := 0
  lens_contamination := false
  hot := false
  cold := false
  pps := false
  gps_time := false
  rpm := 0
  fov_start := 0
  fov_end := 0
  real_life_time := 0
  ip_source := (0, 0, 0, 0)
  ip_dest := (0, 0, 0, 0)
  return_type := ReturnType.strongest
  power_level := PowerLevel.autoNormalized
  humidity := 0
  upper_threshold := 0
  lower_threshold := 0
  calib_dt := ⟨2000, 1, 1, 0, 0, 0⟩

/-- The staging step of `feed` touches only `dt`, `gps_val`, `temp_val` and
`version_val`: all other accumulator fields are unchanged. -/
theorem feedStage_fields (sb : StatusBytes) (a : StatusAccumulator) :
    (feedStage sb a).1.init = a.init ∧
    (feedStage sb a).1.cycle_state = a.cycle_state ∧
    (feedStage sb a).1.cycle_pos = a.cycle_pos ∧
    (feedStage sb a).1.cycle_ids = a.cycle_ids ∧
    (feedStage sb a).1.cycle_values = a.cycle_values ∧
    (feedStage sb a).1.lasers = a.lasers ∧
    (feedStage sb a).1.sensor_state = a.sensor_state := by
  unfold feedStage
  repeat' split
  all_goals exact ⟨rfl, rfl, rfl, rfl, rfl, rfl, rfl⟩

/-- `process_full_cycle` always latches `init` (also when the decoding of
the sensor-state buffer fails). -/
theorem process_full_cycle_init (a : StatusAccumulator) (st : Status)
    (r : StatusAccumulator × Status × Bool)
    (h : process_full_cycle a st = some r) : r.1.init = true := by
  simp only [process_full_cycle] at h
  split at h
  · obtain rfl := Option.some.inj h
    rfl
  · split at h
    · obtain rfl := Option.some.inj h
      rfl
    · split at h
      · obtain rfl := Option.some.inj h
        rfl
      · exact absurd h (by simp)

/-- `consume_cycle` either preserves `init`, or the high-level state was
`SensorState{part: 2}` and `init` comes out `true`. -/
theorem consume_cycle_init (a : StatusAccumulator) (st : Status)
    (r : StatusAccumulator × Status × ConsumeRes)
    (h : consume_cycle a st = some r) :
    r.1.init = a.init ∨
      (a.cycle_state = CycleState.sensorState 2 ∧ r.1.init = true) := by
  obtain ⟨ini, dt, gv, tv, vv, cids, cvals, cpos, cstate, las, ss⟩ := a
  cases cstate with
  | firstCycle =>
    simp only [consume_cycle] at h
    split at h
    · split at h
      · obtain rfl := Option.some.inj h; exact Or.inl rfl
      · obtain rfl := Option.some.inj h; exact Or.inl rfl
    · obtain rfl := Option.some.inj h; exact Or.inl rfl
  | lasers laser part =>
    simp only [consume_cycle] at h
    split at h
    · split at h
      · split at h
        · obtain rfl := Option.some.inj h; exact Or.inl rfl
        · split at h
          · exact absurd h (by simp)
          · obtain rfl := Option.some.inj h
            left
            show (if ini = false then _ else _ : StatusAccumulator).init = ini
            split
            · rfl
            · rfl
      · obtain rfl := Option.some.inj h; exact Or.inl rfl
    · split at h
      · split at h
        · obtain rfl := Option.some.inj h; exact Or.inl rfl
        · obtain rfl := Option.some.inj h; exact Or.inl rfl
      · obtain rfl := Option.some.inj h; exact Or.inl rfl
  | calibrationDt =>
    simp only [consume_cycle] at h
    split at h
    · split at h
      · obtain rfl := Option.some.inj h; exact Or.inl rfl
      · obtain rfl := Option.some.inj h; exact Or.inl rfl
    · obtain rfl := Option.some.inj h; exact Or.inl rfl
  | sensorState part =>
    simp only [consume_cycle] at h
    split at h
    · split at h
      · obtain rfl := Option.some.inj h; exact Or.inl rfl
      · obtain rfl := Option.some.inj h; exact Or.inl rfl
    · split at h
      · split at h
        · obtain rfl := Option.some.inj h; exact Or.inl rfl
        · obtain rfl := Option.some.inj h; exact Or.inl rfl
      · split at h
        · next hpart2 =>
          split at h
          · split at h
            · exact absurd h (by simp)
            · next a' st' e heq =>
              right
              constructor
              · rw [hpart2]
              · split at h
                · obtain rfl := Option.some.inj h
                  exact process_full_cycle_init _ _ _ heq
                · obtain rfl := Option.some.inj h
                  exact process_full_cycle_init _ _ _ heq
          · obtain rfl := Option.some.inj h; exact Or.inl rfl
        · obtain rfl := Option.some.inj h; exact Or.inl rfl

/-- The position-8 commit preserves `init`, the position and the data
buffers; it changes the high-level state only to `FirstCycle`, and only at
position 8 (when `update_status` fails). -/
theorem feedCommit8_fields (a : StatusAccumulator) (st : Status) :
    (feedCommit8 a st).1.init = a.init ∧
    (feedCommit8 a st).1.cycle_pos = a.cycle_pos ∧
    (feedCommit8 a st).1.cycle_ids = a.cycle_ids ∧
    (feedCommit8 a st).1.cycle_values = a.cycle_values ∧
    (feedCommit8 a st).1.lasers = a.lasers ∧
    (feedCommit8 a st).1.sensor_state = a.sensor_state ∧
    ((feedCommit8 a st).1.cycle_state = a.cycle_state ∨
      (a.cycle_pos = 8 ∧
        (feedCommit8 a st).1.cycle_state = CycleState.firstCycle)) := by
  unfold feedCommit8
  split
  · next hpos =>
    split
    · exact ⟨rfl, rfl, rfl, rfl, rfl, rfl, Or.inr ⟨hpos, rfl⟩⟩
    · exact ⟨rfl, rfl, rfl, rfl, rfl, rfl, Or.inl rfl⟩
  · exact ⟨rfl, rfl, rfl, rfl, rfl, rfl, Or.inl rfl⟩

/-- The tail of `feed` preserves `init` except through a successful
position-15 consume of `SensorState{part: 2}` (which sets it to `true`). -/
theorem feedTail_init (sb : StatusBytes) (a : StatusAccumulator)
    (st : Status) (a' : StatusAccumulator) (st' : Status)
    (h : feedTail sb a st = some (a', st')) :
    a'.init = a.init ∨
      (a.cycle_state = CycleState.sensorState 2 ∧ a.cycle_pos = 15 ∧
        a'.init = true) := by
  unfold feedTail at h
  split at h
  · have hp := Option.some.inj h
    injection hp with h1 h2
    subst h1
    exact Or.inl rfl
  · dsimp only at h
    split at h
    · next hpos15 =>
      split at h
      · exact absurd h (by simp)
      · next a'' st'' heq =>
        injection Option.some.inj h with h1 h2
        subst h1
        rcases consume_cycle_init _ _ _ heq with hsame | ⟨hstate2, htrue⟩
        · exact Or.inl hsame
        · exact Or.inr ⟨hstate2, hpos15, htrue⟩
      · next a'' st'' heq =>
        injection Option.some.inj h with h1 h2
        subst h1
        rcases consume_cycle_init _ _ _ heq with hsame | ⟨hstate2, htrue⟩
        · exact Or.inl hsame
        · exact Or.inr ⟨hstate2, hpos15, htrue⟩
      · next a'' st'' heq =>
        injection Option.some.inj h with h1 h2
        subst h1
        rcases consume_cycle_init _ _ _ heq with hsame | ⟨hstate2, htrue⟩
        · exact Or.inl hsame
        · exact Or.inr ⟨hstate2, hpos15, htrue⟩
    · injection Option.some.inj h with h1 h2
      subst h1
      exact Or.inl rfl

/-- `feed` preserves `init` except when it completes a full high-level
cycle: a `SensorState{part: 2}` consume at position 15. -/
theorem feed_init (sb : StatusBytes) (a : StatusAccumulator) (st : Status)
    (a' : StatusAccumulator) (st' : Status)
    (h : feed sb a st = some (a', st')) :
    a'.init = a.init ∨
      (a.cycle_state = CycleState.sensorState 2 ∧ a.cycle_pos = 15 ∧
        a'.init = true) := by
  obtain ⟨hsi, hss, hsp, _, _, _, _⟩ := feedStage_fields sb a
  simp only [feed] at h
  split at h
  · have hp := Option.some.inj h
    injection hp with h1 h2
    subst h1
    exact Or.inl hsi
  · obtain ⟨hci, hcp, _, _, _, _, hcs⟩ :=
      feedCommit8_fields (feedStage sb a).1 st
    rcases feedTail_init _ _ _ _ _ h with h0 | ⟨h1, h2, h3⟩
    · exact Or.inl (h0.trans (hci.trans hsi))
    · rcases hcs with hcs | ⟨_, hcs⟩
      · refine Or.inr ⟨?_, ?_, h3⟩
        · rw [← hss, ← hcs]
          exact h1
        · rw [← hsp, ← hcp]
          exact h2
      · rw [hcs] at h1
        exact absurd h1 (by simp)

/-- A position-15 consume in `SensorState{part: 2}` whose recorded ids match
the expected pattern but whose return-mode byte is invalid: the consume step
reports the error, yet `init` has already been latched to `true`. -/
theorem consume_sensor2_err (a : StatusAccumulator) (st : Status)
    (hstate : a.cycle_state = CycleState.sensorState 2)
    (hids : ids7 a.cycle_ids 49 50 249 52 248 54 55 = true)
    (h16 : rtDecode (a.cycle_values 2) = none) :
    ∃ a' st', consume_cycle a st = some (a', st', ConsumeRes.errRes) ∧
      a'.init = true ∧ a'.cycle_state = a.cycle_state := by
  obtain ⟨ini, dt, gv, tv, vv, cids, cvals, cpos, cstate, las, ss⟩ := a
  dsimp only at hstate hids h16 ⊢
  subst hstate
  have hcopy : copy7 ss 14 cvals 16 = cvals 2 := by
    unfold copy7
    norm_num
  refine ⟨⟨true, dt, gv, tv, vv, cids, cvals, cpos, CycleState.sensorState 2,
    las, copy7 ss 14 cvals⟩,
    { st with
      rpm := le16 (copy7 ss 14 cvals 0) (copy7 ss 14 cvals 1),
      fov_start := le16 (copy7 ss 14 cvals 2) (copy7 ss 14 cvals 3),
      fov_end := le16 (copy7 ss 14 cvals 4) (copy7 ss 14 cvals 5),
      real_life_time := le16 (copy7 ss 14 cvals 6) (copy7 ss 14 cvals 7),
      ip_source := (copy7 ss 14 cvals 8, copy7 ss 14 cvals 9,
        copy7 ss 14 cvals 10, copy7 ss 14 cvals 11),
      ip_dest := (copy7 ss 14 cvals 12, copy7 ss 14 cvals 13,
        copy7 ss 14 cvals 14, copy7 ss 14 cvals 15) }, ?_, rfl, rfl⟩
  simp only [consume_cycle]
  norm_num
  rw [if_pos hids]
  simp only [process_full_cycle]
  rw [hcopy, h16]
  rfl

/-- C6 (amended): `process_full_cycle` latches `initialised = true` on
every completion of a full high-level cycle — also when the sensor-state
decoding fails.  In particular a full cycle whose return-mode byte 16 is
invalid still reports the error (so `feed` performs the soft reset to
`FirstCycle`) but leaves `initialised = true`; and `init` can only become
`true` through a position-15 consume in `SensorState{part: 2}`. -/
theorem c6_init_latch_amended :
    (∀ (a : StatusAccumulator) (st : Status)
        (r : StatusAccumulator × Status × Bool),
      process_full_cycle a st = some r → r.1.init = true) ∧
    (∀ (a : StatusAccumulator) (st : Status),
      rtDecode (a.sensor_state 16) = none →
      ∃ a' st', process_full_cycle a st = some (a', st', true) ∧
        a'.init = true) ∧
    (∀ (sb : StatusBytes) (a : StatusAccumulator) (st : Status)
        (a' : StatusAccumulator) (st' : Status),
      feed sb a st = some (a', st') → a.init = false → a'.init = true →
      a.cycle_pos = 15 ∧ a.cycle_state = CycleState.sensorState 2) ∧
    (∀ (sb : StatusBytes) (a : StatusAccumulator) (st : Status),
      a.cycle_pos = 15 → a.cycle_state = CycleState.sensorState 2 →
      sb.id = 55 →
      (∀ j, j < 6 → a.cycle_ids j = [49, 50, 249, 52, 248, 54].getD j 0) →
      rtDecode (a.cycle_values 2) = none →
      ∃ a' st', feed sb a st = some (a', st') ∧ a'.init = true ∧
        a'.cycle_state = CycleState.firstCycle ∧ a'.cycle_pos = 0) := by
  refine ⟨process_full_cycle_init, ?_, ?_, ?_⟩
  · intro a st h16
    refine ⟨{ a with init := true },
      { st with
        rpm := le16 (a.sensor_state 0) (a.sensor_state 1),
        fov_start := le16 (a.sensor_state 2) (a.sensor_state 3),
        fov_end := le16 (a.sensor_state 4) (a.sensor_state 5),
        real_life_time := le16 (a.sensor_state 6) (a.sensor_state 7),
        ip_source := (a.sensor_state 8, a.sensor_state 9,
          a.sensor_state 10, a.sensor_state 11),
        ip_dest := (a.sensor_state 12, a.sensor_state 13,
          a.sensor_state 14, a.sensor_state 15) }, ?_, rfl⟩
    simp only [process_full_cycle]
    rw [show ({ a with init := true } : StatusAccumulator).sensor_state =
      a.sensor_state from rfl, h16]
  · intro sb a st a' st' h hfalse htrue
    rcases feed_init sb a st a' st' h with hsame | ⟨h1, h2, _⟩
    · rw [htrue, hfalse] at hsame
      exact absurd hsame (by simp)
    · exact ⟨h2, h1⟩
  · intro sb a st hpos hstate hid hids h16
    have hstage : feedStage sb a = (a, true) := by
      unfold feedStage
      rw [hid, hpos]
      norm_num
    have hc8 : feedCommit8 a st = (a, st) := by
      unfold feedCommit8
      rw [hpos]
      norm_num
    have h0 := hids 0 (by omega)
    have h1 := hids 1 (by omega)
    have h2 := hids 2 (by omega)
    have h3 := hids 3 (by omega)
    have h4 := hids 4 (by omega)
    have h5 := hids 5 (by omega)
    have ha2ids : ∀ j, Function.update a.cycle_ids (a.cycle_pos - 9) sb.id j =
        Function.update a.cycle_ids 6 55 j := by
      intro j
      rw [hpos, hid]
    have hids2 : ids7 (Function.update a.cycle_ids (a.cycle_pos - 9) sb.id)
        49 50 249 52 248 54 55 = true := by
      unfold ids7
      rw [ha2ids, ha2ids, ha2ids, ha2ids, ha2ids, ha2ids, ha2ids]
      simp [Function.update, h0, h1, h2, h3, h4, h5]
    have h16b : rtDecode
        (Function.update a.cycle_values (a.cycle_pos - 9) sb.value 2) =
          none := by
      rw [hpos]
      rw [show Function.update a.cycle_values (15 - 9) sb.value 2 =
        a.cycle_values 2 from by
          rw [Function.update_noteq (by norm_num)]]
      exact h16
    obtain ⟨a', st', hcons, hinit', hcs'⟩ := consume_sensor2_err
      { a with
        cycle_ids := Function.update a.cycle_ids (a.cycle_pos - 9) sb.id,
        cycle_values :=
          Function.update a.cycle_values (a.cycle_pos - 9) sb.value }
      st hstate hids2 h16b
    refine ⟨{ a' with cycle_state := CycleState.firstCycle, cycle_pos := 0 },
      st', ?_, hinit', rfl, rfl⟩
    simp only [feed, hstage]
    norm_num
    rw [hc8]
    unfold feedTail
    rw [if_neg (show ¬ a.cycle_pos ≤ 8 by omega)]
    dsimp only
    rw [if_pos hpos, hcons]

/-- Accumulator state about to finish a full high-level cycle: position 15
in `SensorState{part: 2}`, staged ids matching the expected pattern, and a
staged return-mode byte of 5 (invalid). -/
def accum6 : StatusAccumulator :=
  { accum0 with
    cycle_pos := 15,
    cycle_state := CycleState.sensorState 2,
    cycle_ids := fun j => [49, 50, 249, 52, 248, 54].getD j 0,
    cycle_values := fun j => if j = 2 then 5 else 0,
    lasers := fun i j => if j = 0 then i else 0 }

/-- C6 counterexample: feeding the final byte of a full cycle whose
return-mode byte (5) is invalid still sets `initialised = true` — the
claim that a failing cycle "does not latch initialised = true" is false.
The soft reset to `FirstCycle` does happen, and the status `return_type`
is left unchanged (the decode failed). -/
theorem c6_counterexample :
    accum6.init = false ∧
    accum6.cycle_values 2 = 5 ∧
    rtDecode 5 = none ∧
    ((feed ⟨55, 0⟩ accum6 status0).map fun r =>
      (r.1.init, r.1.cycle_state, r.2.return_type)) =
      some (true, CycleState.firstCycle, status0.return_type) := by
  refine ⟨rfl, rfl, rfl, ?_⟩
  rfl

/-- Witness for C6 (amended) at `accum6`. -/
theorem c6_init_latch_amended_witness :
    ∃ a' st', feed ⟨55, 0⟩ accum6 status0 = some (a', st') ∧
      a'.init = true ∧ a'.cycle_state = CycleState.firstCycle ∧
      a'.cycle_pos = 0 :=
  c6_init_latch_amended.2.2.2 ⟨55, 0⟩ accum6 status0 rfl rfl rfl
    (by intro j hj; interval_cases j <;> rfl) rfl

/-- The mini-cycle position at which each fixed status id is expected
('H','M','S','D','N','Y','G','T','V'). -/
def fixedSlot (id : Nat) : Option Nat :=
  if id = 72 then some 0
  else if id = 77 then some 1
  else if id = 83 then some 2
  else if id = 68 then some 3
  else if id = 78 then some 4
  else if id = 89 then some 5
  else if id = 71 then some 6
  else if id = 84 then some 7
  else if id = 86 then some 8
  else none

/-- For a fixed-id byte, the `is_ok` flag of the staging step is exactly
"the current position equals the id's slot". -/
theorem fixedSlot_stage (sb : StatusBytes) (a : StatusAccumulator) (k : Nat)
    (hk : fixedSlot sb.id = some k) :
    (feedStage sb a).2 = (a.cycle_pos == k) := by
  unfold fixedSlot at hk
  unfold feedStage
  split at hk
  · next h =>
    rw [if_pos h]
    obtain rfl := Option.some.inj hk
    rfl
  · next h =>
    rw [if_neg h]
    split at hk
    · next h =>
      rw [if_pos h]
      obtain rfl := Option.some.inj hk
      rfl
    · next h =>
      rw [if_neg h]
      split at hk
      · next h =>
        rw [if_pos h]
        obtain rfl := Option.some.inj hk
        rfl
      · next h =>
        rw [if_neg h]
        split at hk
        · next h =>
          rw [if_pos h]
          obtain rfl := Option.some.inj hk
          rfl
        · next h =>
          rw [if_neg h]
          split at hk
          · next h =>
            rw [if_pos h]
            obtain rfl := Option.some.inj hk
            rfl
          · next h =>
            rw [if_neg h]
            split at hk
            · next h =>
              rw [if_pos h]
              obtain rfl := Option.some.inj hk
              rfl
            · next h =>
              rw [if_neg h]
              split at hk
              · next h =>
                rw [if_pos h]
                obtain rfl := Option.some.inj hk
                rfl
              · next h =>
                rw [if_neg h]
                split at hk
                · next h =>
                  rw [if_pos h]
                  obtain rfl := Option.some.inj hk
                  rfl
                · next h =>
                  rw [if_neg h]
                  split at hk
                  · next h =>
                    rw [if_pos h]
                    obtain rfl := Option.some.inj hk
                    rfl
                  · next h =>
                    rw [if_neg h]
                    exact absurd hk (by simp)

/-- The tail of `feed` changes the high-level state only at position 15. -/
theorem feedTail_state (sb : StatusBytes) (a : StatusAccumulator)
    (st : Status) (a' : StatusAccumulator) (st' : Status)
    (h : feedTail sb a st = some (a', st')) :
    a'.cycle_state = a.cycle_state ∨ a.cycle_pos = 15 := by
  unfold feedTail at h
  split at h
  · injection Option.some.inj h with h1 h2
    subst h1
    exact Or.inl rfl
  · dsimp only at h
    split at h
    · next hpos15 => exact Or.inr hpos15
    · injection Option.some.inj h with h1 h2
      subst h1
      exact Or.inl rfl

/-- C8 (amended): a fixed-id status byte at the wrong mini-cycle position
makes `feed` reset only the 16-position mini-cycle counter (the staged
header value is still written); the high-level cycle state, `init`, the
data buffers and the status are unchanged.  The high-level state is reset
to `FirstCycle` only by a feed at position 15 (consume failure /
out-of-order cycle) or at position 8 (failing status commit). -/
theorem c8_reset_behaviour_amended :
    (∀ (sb : StatusBytes) (a : StatusAccumulator) (st : Status) (k : Nat),
      fixedSlot sb.id = some k → a.cycle_pos ≠ k →
      ∃ a', feed sb a st = some (a', st) ∧ a'.cycle_pos = 0 ∧
        a'.cycle_state = a.cycle_state ∧ a'.init = a.init ∧
        a'.cycle_ids = a.cycle_ids ∧ a'.cycle_values = a.cycle_values ∧
        a'.lasers = a.lasers ∧ a'.sensor_state = a.sensor_state) ∧
    (∀ (sb : StatusBytes) (a : StatusAccumulator) (st : Status)
        (a' : StatusAccumulator) (st' : Status),
      feed sb a st = some (a', st') →
      a'.cycle_state = CycleState.firstCycle →
      a.cycle_state ≠ CycleState.firstCycle →
      a.cycle_pos = 8 ∨ a.cycle_pos = 15) := by
  constructor
  · intro sb a st k hk hne
    obtain ⟨hsi, hss, hsp, hsid, hsvl, hsl, hsss⟩ := feedStage_fields sb a
    have hfalse : (feedStage sb a).2 = false := by
      rw [fixedSlot_stage sb a k hk]
      exact beq_eq_false_iff_ne.mpr hne
    refine ⟨{ (feedStage sb a).1 with cycle_pos := 0 }, ?_, rfl,
      hss, hsi, hsid, hsvl, hsl, hsss⟩
    simp only [feed]
    rw [hfalse]
    rfl
  · intro sb a st a' st' h hfc hne
    obtain ⟨hsi, hss, hsp, _, _, _, _⟩ := feedStage_fields sb a
    simp only [feed] at h
    split at h
    · injection Option.some.inj h with h1 h2
      subst h1
      rw [hss] at hfc
      exact absurd hfc hne
    · obtain ⟨hci, hcp, _, _, _, _, hcs⟩ :=
        feedCommit8_fields (feedStage sb a).1 st
      rcases feedTail_state _ _ _ _ _ h with heq | hp15
      · rcases hcs with hcs | ⟨hp8, _⟩
        · rw [heq, hcs, hss] at hfc
          exact absurd hfc hne
        · left
          rw [← hsp]
          exact hp8
      · right
        rw [← hsp, ← hcp]
        exact hp15

/-- One correct mini-cycle from the default state: valid date/GPS header,
then the `FirstCycle` pattern (`12345`, `F7`, `F6` with values `UNIT#` and
two thresholds). -/
def c8seq16 : List StatusBytes :=
  [⟨72, 0⟩, ⟨77, 0⟩, ⟨83, 0⟩, ⟨68, 1⟩, ⟨78, 1⟩, ⟨89, 0⟩, ⟨71, 0⟩, ⟨84, 0⟩,
   ⟨86, 0⟩, ⟨49, 85⟩, ⟨50, 78⟩, ⟨51, 73⟩, ⟨52, 84⟩, ⟨53, 35⟩, ⟨247, 0⟩,
   ⟨246, 0⟩]

/-- The same mini-cycle followed by a second header whose month byte is 0
(an invalid date), ending with the version byte at position 8. -/
def c8seq25 : List StatusBytes :=
  c8seq16 ++ [⟨72, 0⟩, ⟨77, 0⟩, ⟨83, 0⟩, ⟨68, 1⟩, ⟨78, 0⟩, ⟨89, 0⟩, ⟨71, 0⟩,
    ⟨84, 0⟩, ⟨86, 0⟩]

/-- C8 counterexample: after the first 16 bytes the high-level state is
`Lasers{laser: 0, part: 0}`; nine bytes later — with the mini-cycle
position only at 9, so no position-15 consume step ever ran — the
high-level state is back to `FirstCycle`: the reset was performed by the
failing position-8 status commit, refuting "the high-level state is reset
to FirstCycle only when the consume step at position 15 fails or reports
an out-of-order cycle". -/
theorem c8_counterexample :
    ((feedAll c8seq16 accum0 status0).map fun r =>
      (r.1.cycle_state, r.1.cycle_pos)) =
        some (CycleState.lasers 0 0, 0) ∧
    ((feedAll c8seq25 accum0 status0).map fun r =>
      (r.1.cycle_state, r.1.cycle_pos)) =
        some (CycleState.firstCycle, 9) := by
  exact ⟨rfl, rfl⟩

/-- Accumulator at position 3 (an 'H' byte there is out of order). -/
def accum8a : StatusAccumulator := { accum0 with cycle_pos := 3 }

/-- Accumulator at position 8 in the middle of the laser table, with an
all-zero staged date (month 0 — invalid). -/
def accum8b : StatusAccumulator :=
  { accum0 with cycle_pos := 8, cycle_state := CycleState.lasers 4 1 }

/-- The state after feeding the version byte to `accum8b`: the failing
commit reset the high-level state. -/
def accum8b' : StatusAccumulator :=
  { accum8b with cycle_state := CycleState.firstCycle, cycle_pos := 9 }

/-- Witness for C8 (amended): an 'H' byte at position 3 resets only the
counter, and the concrete position-8 commit failure satisfies the
"position 8 or 15" characterisation. -/
theorem c8_reset_behaviour_amended_witness :
    (∃ a', feed ⟨72, 5⟩ accum8a status0 = some (a', status0) ∧
      a'.cycle_pos = 0 ∧ a'.cycle_state = accum8a.cycle_state ∧
      a'.init = accum8a.init ∧ a'.cycle_ids = accum8a.cycle_ids ∧
      a'.cycle_values = accum8a.cycle_values ∧
      a'.lasers = accum8a.lasers ∧
      a'.sensor_state = accum8a.sensor_state) ∧
    (accum8b.cycle_pos = 8 ∨ accum8b.cycle_pos = 15) := by
  constructor
  · exact c8_reset_behaviour_amended.1 ⟨72, 5⟩ accum8a status0 0 rfl
      (by decide)
  · exact c8_reset_behaviour_amended.2 ⟨86, 0⟩ accum8b status0 accum8b'
      status0 rfl rfl (by decide)

/-- C10: `process_full_cycle` is not atomic on error.  When the return-mode
byte 16 is invalid, the error is reported only after `rpm`, `fov_start`,
`fov_end`, `real_life_time`, `ip_source` and `ip_dest` have been
overwritten from the sensor-state buffer (`return_type` and `power_level`
keep their old values); when byte 16 is valid but the power-level byte 18
is invalid, `return_type` has additionally been overwritten.  The soft
reset performed by `feed` keeps this partially updated status. -/
theorem c10_full_cycle_partial_writes (a : StatusAccumulator) (st : Status) :
    (rtDecode (a.sensor_state 16) = none →
      process_full_cycle a st = some ({ a with init := true },
        { st with
          rpm := le16 (a.sensor_state 0) (a.sensor_state 1),
          fov_start := le16 (a.sensor_state 2) (a.sensor_state 3),
          fov_end := le16 (a.sensor_state 4) (a.sensor_state 5),
          real_life_time := le16 (a.sensor_state 6) (a.sensor_state 7),
          ip_source := (a.sensor_state 8, a.sensor_state 9,
            a.sensor_state 10, a.sensor_state 11),
          ip_dest := (a.sensor_state 12, a.sensor_state 13,
            a.sensor_state 14, a.sensor_state 15) }, true)) ∧
    (∀ rt, rtDecode (a.sensor_state 16) = some rt →
      plDecode (a.sensor_state 18) = none →
      process_full_cycle a st = some ({ a with init := true },
        { st with
          rpm := le16 (a.sensor_state 0) (a.sensor_state 1),
          fov_start := le16 (a.sensor_state 2) (a.sensor_state 3),
          fov_end := le16 (a.sensor_state 4) (a.sensor_state 5),
          real_life_time := le16 (a.sensor_state 6) (a.sensor_state 7),
          ip_source := (a.sensor_state 8, a.sensor_state 9,
            a.sensor_state 10, a.sensor_state 11),
          ip_dest := (a.sensor_state 12, a.sensor_state 13,
            a.sensor_state 14, a.sensor_state 15),
          return_type := rt }, true)) := by
  constructor
  · intro h16
    simp only [process_full_cycle]
    rw [show ({ a with init := true } : StatusAccumulator).sensor_state =
      a.sensor_state from rfl, h16]
  · intro rt h16 h18
    simp only [process_full_cycle]
    rw [show ({ a with init := true } : StatusAccumulator).sensor_state =
      a.sensor_state from rfl, h16, h18]

/-- Accumulator whose sensor-state buffer has an invalid return-mode byte
and an invalid power-level byte. -/
def accum10 : StatusAccumulator :=
  { accum0 with sensor_state := fun j => if j = 16 then 7 else 0 }

/-- Accumulator with a valid return-mode byte 16 (value 1, "last") and an
invalid power-level byte 18 (zero). -/
def accum10b : StatusAccumulator :=
  { accum0 with sensor_state := fun j => if j = 16 then 1 else 0 }

/-- Witness for C10 at two concrete accumulators. -/
theorem c10_full_cycle_partial_writes_witness :
    process_full_cycle accum10 status0 = some ({ accum10 with init := true },
      { status0 with
        rpm := le16 (accum10.sensor_state 0) (accum10.sensor_state 1),
        fov_start := le16 (accum10.sensor_state 2) (accum10.sensor_state 3),
        fov_end := le16 (accum10.sensor_state 4) (accum10.sensor_state 5),
        real_life_time :=
          le16 (accum10.sensor_state 6) (accum10.sensor_state 7),
        ip_source := (accum10.sensor_state 8, accum10.sensor_state 9,
          accum10.sensor_state 10, accum10.sensor_state 11),
        ip_dest := (accum10.sensor_state 12, accum10.sensor_state 13,
          accum10.sensor_state 14, accum10.sensor_state 15) }, true) ∧
    process_full_cycle accum10b status0 = some ({ accum10b with init := true },
      { status0 with
        rpm := le16 (accum10b.sensor_state 0) (accum10b.sensor_state 1),
        fov_start := le16 (accum10b.sensor_state 2) (accum10b.sensor_state 3),
        fov_end := le16 (accum10b.sensor_state 4) (accum10b.sensor_state 5),
        real_life_time :=
          le16 (accum10b.sensor_state 6) (accum10b.sensor_state 7),
        ip_source := (accum10b.sensor_state 8, accum10b.sensor_state 9,
          accum10b.sensor_state 10, accum10b.sensor_state 11),
        ip_dest := (accum10b.sensor_state 12, accum10b.sensor_state 13,
          accum10b.sensor_state 14, accum10b.sensor_state 15),
        return_type := ReturnType.last }, true) :=
  ⟨(c10_full_cycle_partial_writes accum10 status0).1 rfl,
   (c10_full_cycle_partial_writes accum10b status0).2 ReturnType.last rfl rfl⟩

/-- The invariant that protects the `assert_eq!` of `process_calib_db` and
the `self.lasers.0[laser]` indexing: whatever part of the laser table the
high-level state machine has passed already carries the correct laser
index in byte 0, and once `init` is latched the whole table does. -/
def LasersOK (a : StatusAccumulator) : Prop :=
  (a.init = true → ∀ i, i < 64 → a.lasers i 0 = i) ∧
  (match a.cycle_state with
   | CycleState.lasers laser part =>
     laser ≤ 63 ∧ (laser = 63 → part ≤ 2) ∧
     (∀ i, i < laser → a.lasers i 0 = i) ∧
     (1 ≤ part → a.lasers laser 0 = laser)
   | CycleState.calibrationDt => ∀ i, i < 64 → a.lasers i 0 = i
   | CycleState.sensorState _ => ∀ i, i < 64 → a.lasers i 0 = i
   | CycleState.firstCycle => True)

/-- `LasersOK` only inspects `init`, `cycle_state` and `lasers`. -/
theorem LasersOK_congr (x y : StatusAccumulator) (hi : y.init = x.init)
    (hs : y.cycle_state = x.cycle_state) (hl : y.lasers = x.lasers)
    (h : LasersOK x) : LasersOK y := by
  unfold LasersOK at h ⊢
  rw [hi, hs, hl]
  exact h

/-- Any accumulator in state `FirstCycle` whose `init`-part holds is
`LasersOK`. -/
theorem LasersOK_firstCycle (y : StatusAccumulator)
    (hs : y.cycle_state = CycleState.firstCycle)
    (hi : y.init = true → ∀ i, i < 64 → y.lasers i 0 = i) : LasersOK y := by
  unfold LasersOK
  rw [hs]
  exact ⟨hi, trivial⟩

/-- A correct laser table passes the `process_calib_db` assertions. -/
theorem processCalibDbOk_of (a : StatusAccumulator)
    (h : ∀ i, i < 64 → a.lasers i 0 = i) : processCalibDbOk a = true := by
  unfold processCalibDbOk
  rw [List.all_eq_true]
  intro i hi
  rw [List.mem_range] at hi
  simpa using h i hi

/-- When the laser table passes the assertions, `process_full_cycle` never
panics; the resulting accumulator is the input with `init` latched. -/
theorem process_full_cycle_total (a : StatusAccumulator) (st : Status)
    (hOk : processCalibDbOk a = true) :
    ∃ r, process_full_cycle a st = some r ∧ r.1 = { a with init := true } := by
  simp only [process_full_cycle]
  cases h16 : rtDecode (a.sensor_state 16) with
  | none => exact ⟨_, rfl, rfl⟩
  | some rt =>
    cases h18 : plDecode (a.sensor_state 18) with
    | none => exact ⟨_, rfl, rfl⟩
    | some pl =>
      dsimp only
      have hOk' : processCalibDbOk { a with init := true } = true := by
        unfold processCalibDbOk at hOk ⊢
        exact hOk
      rw [if_pos hOk']
      exact ⟨_, rfl, rfl⟩

/-- On a `LasersOK` accumulator, `consume_cycle` never panics and the
invariant is preserved. -/
theorem consume_cycle_total (a : StatusAccumulator) (st : Status)
    (hI : LasersOK a) :
    ∃ r, consume_cycle a st = some r ∧ LasersOK r.1 := by
  obtain ⟨ini, dt, gv, tv, vv, cids, cvals, cpos, cstate, las, ss⟩ := a
  obtain ⟨hP3, hbr⟩ := hI
  cases cstate with
  | firstCycle =>
    simp only [consume_cycle]
    split
    · split
      · refine ⟨_, rfl, ?_⟩
        unfold LasersOK
        dsimp only
        refine ⟨hP3, by omega, fun h => by omega, fun i hi => by omega,
          fun h => by omega⟩
      · exact ⟨_, rfl, ⟨hP3, trivial⟩⟩
    · exact ⟨_, rfl, ⟨hP3, trivial⟩⟩
  | lasers laser part =>
    obtain ⟨hl63, hl63p, hprev, hpart1⟩ := hbr
    have hcopy0 : copy7 (las laser) (7 * part) cvals 0 =
        if part = 0 then cvals 0 else las laser 0 := by
      unfold copy7
      by_cases hp0 : part = 0
      · subst hp0
        norm_num
      · rw [if_neg (fun hc => absurd hc.1 (by omega)), if_neg hp0]
    simp only [consume_cycle]
    by_cases hp2 : part ≤ 2
    · rw [if_pos hp2]
      by_cases hids : ids7 cids 49 50 51 52 53 54 55 = true
      · rw [if_pos hids]
        by_cases hv : part = 0 ∧ cvals 0 ≠ laser % 256
        · rw [if_pos hv]
          refine ⟨_, rfl, ?_⟩
          unfold LasersOK
          dsimp only
          exact ⟨hP3, hl63, hl63p, hprev, hpart1⟩
        · have hv0 : part = 0 → cvals 0 = laser := by
            intro hp0
            rcases not_and_or.mp hv with hc | hc
            · exact absurd hp0 hc
            · have hcv := not_not.mp hc
              rw [hcv, Nat.mod_eq_of_lt (by omega)]
          rw [if_neg hv,
            if_neg (show ¬(ini = false ∧ 64 ≤ laser) from
              fun hc => absurd hc.2 (by omega))]
          by_cases hini : ini = false
          · rw [if_pos hini]
            by_cases hnew : laser = 63 ∧ part = 2
            · rw [if_pos hnew]
              refine ⟨_, rfl, ?_⟩
              unfold LasersOK
              dsimp only
              constructor
              · intro ht _ _
                rw [hini] at ht
                exact absurd ht (by simp)
              · intro i hi
                by_cases hil : i = laser
                · rw [if_pos hil, hcopy0, if_neg (by omega), hil]
                  exact hpart1 (by omega)
                · rw [if_neg hil]
                  exact hprev i (by omega)
            · rw [if_neg hnew]
              refine ⟨_, rfl, ?_⟩
              unfold LasersOK
              dsimp only
              refine ⟨?_, hl63, ?_, ?_, ?_⟩
              · intro ht _ _
                rw [hini] at ht
                exact absurd ht (by simp)
              · intro h63
                have hne2 : part ≠ 2 := fun hp => hnew ⟨h63, hp⟩
                omega
              · intro i hi
                rw [if_neg (by omega)]
                exact hprev i hi
              · intro _
                rw [if_pos rfl, hcopy0]
                by_cases hp0 : part = 0
                · rw [if_pos hp0]
                  exact hv0 hp0
                · rw [if_neg hp0]
                  exact hpart1 (by omega)
          · have hinit : ini = true := by
              revert hini
              cases ini
              · intro hc
                exact absurd rfl hc
              · intro _
                rfl
            have hall : ∀ i, i < 64 → las i 0 = i := hP3 hinit
            rw [if_neg hini]
            by_cases hnew : laser = 63 ∧ part = 2
            · rw [if_pos hnew]
              refine ⟨_, rfl, ?_⟩
              unfold LasersOK
              dsimp only
              exact ⟨hP3, hall⟩
            · rw [if_neg hnew]
              refine ⟨_, rfl, ?_⟩
              unfold LasersOK
              dsimp only
              refine ⟨hP3, hl63, ?_, hprev, fun _ => hall laser (by omega)⟩
              intro h63
              have hne2 : part ≠ 2 := fun hp => hnew ⟨h63, hp⟩
              omega
      · rw [if_neg hids]
        refine ⟨_, rfl, ?_⟩
        unfold LasersOK
        dsimp only
        exact ⟨hP3, hl63, hl63p, hprev, hpart1⟩
    · rw [if_neg hp2]
      by_cases hp3 : part = 3
      · rw [if_pos hp3]
        split
        · refine ⟨_, rfl, ?_⟩
          unfold LasersOK
          dsimp only
          refine ⟨hP3, by omega, fun _ => by omega, ?_, fun h => by omega⟩
          intro i hi
          by_cases hil : i = laser
          · rw [hil]
            exact hpart1 (by omega)
          · exact hprev i (by omega)
        · refine ⟨_, rfl, ?_⟩
          unfold LasersOK
          dsimp only
          exact ⟨hP3, hl63, hl63p, hprev, hpart1⟩
      · rw [if_neg hp3]
        refine ⟨_, rfl, ?_⟩
        unfold LasersOK
        dsimp only
        exact ⟨hP3, hl63, hl63p, hprev, hpart1⟩
  | calibrationDt =>
    simp only [consume_cycle]
    split
    · split
      · exact ⟨_, rfl, ⟨hP3, hbr⟩⟩
      · refine ⟨_, rfl, ?_⟩
        unfold LasersOK
        dsimp only
        exact ⟨hP3, hbr⟩
    · exact ⟨_, rfl, ⟨hP3, hbr⟩⟩
  | sensorState part =>
    simp only [consume_cycle]
    by_cases hp0 : part = 0
    · rw [if_pos hp0]
      split
      · refine ⟨_, rfl, ?_⟩
        unfold LasersOK
        dsimp only
        exact ⟨hP3, hbr⟩
      · exact ⟨_, rfl, ⟨hP3, hbr⟩⟩
    · rw [if_neg hp0]
      by_cases hp1 : part = 1
      · rw [if_pos hp1]
        split
        · refine ⟨_, rfl, ?_⟩
          unfold LasersOK
          dsimp only
          exact ⟨hP3, hbr⟩
        · exact ⟨_, rfl, ⟨hP3, hbr⟩⟩
      · rw [if_neg hp1]
        by_cases hp2 : part = 2
        · rw [if_pos hp2]
          split
          · obtain ⟨r', hr', hr1⟩ := process_full_cycle_total
              ⟨ini, dt, gv, tv, vv, cids, cvals, cpos,
                CycleState.sensorState part, las, copy7 ss 14 cvals⟩ st
              (processCalibDbOk_of _ hbr)
            obtain ⟨a', st', e⟩ := r'
            dsimp only at hr1
            subst hr1
            rw [hr']
            cases e
            · refine ⟨_, rfl, ?_⟩
              unfold LasersOK
              dsimp only
              exact ⟨fun _ => hbr, trivial⟩
            · refine ⟨_, rfl, ?_⟩
              unfold LasersOK
              dsimp only
              exact ⟨fun _ => hbr, hbr⟩
          · exact ⟨_, rfl, ⟨hP3, hbr⟩⟩
        · rw [if_neg hp2]
          exact ⟨_, rfl, ⟨hP3, hbr⟩⟩

/-- On a `LasersOK` accumulator, the tail of `feed` never panics and the
invariant is preserved. -/
theorem feedTail_total (sb : StatusBytes) (a : StatusAccumulator)
    (st : Status) (hI : LasersOK a) :
    ∃ r, feedTail sb a st = some r ∧ LasersOK r.1 := by
  unfold feedTail
  split
  · exact ⟨_, rfl, LasersOK_congr a _ rfl rfl rfl hI⟩
  · dsimp only
    split
    · have hI2 : LasersOK { a with
          cycle_ids := Function.update a.cycle_ids (a.cycle_pos - 9) sb.id,
          cycle_values :=
            Function.update a.cycle_values (a.cycle_pos - 9) sb.value } :=
        LasersOK_congr a _ rfl rfl rfl hI
      obtain ⟨r', hr', hI'⟩ := consume_cycle_total _ st hI2
      obtain ⟨a', st', res⟩ := r'
      rw [hr']
      cases res
      · exact ⟨_, rfl, LasersOK_congr a' _ rfl rfl rfl hI'⟩
      · refine ⟨_, rfl, LasersOK_firstCycle _ rfl ?_⟩
        exact hI'.1
      · refine ⟨_, rfl, LasersOK_firstCycle _ rfl ?_⟩
        exact hI'.1
    · exact ⟨_, rfl, LasersOK_congr _ _ rfl rfl rfl
        (LasersOK_congr a _ rfl rfl rfl hI)⟩

/-- On a `LasersOK` accumulator, `feed` never panics and the invariant is
preserved. -/
theorem feed_total (sb : StatusBytes) (a : StatusAccumulator) (st : Status)
    (hI : LasersOK a) :
    ∃ r, feed sb a st = some r ∧ LasersOK r.1 := by
  obtain ⟨hsi, hss, hsp, _, _, hsl, _⟩ := feedStage_fields sb a
  have hIs : LasersOK (feedStage sb a).1 :=
    LasersOK_congr a _ hsi hss hsl hI
  simp only [feed]
  split
  · exact ⟨_, rfl, LasersOK_congr (feedStage sb a).1 _ rfl rfl rfl hIs⟩
  · obtain ⟨hci, _, _, _, hcl, _, hcs⟩ :=
      feedCommit8_fields (feedStage sb a).1 st
    have hIc : LasersOK (feedCommit8 (feedStage sb a).1 st).1 := by
      rcases hcs with hcs | ⟨_, hcs⟩
      · exact LasersOK_congr (feedStage sb a).1 _ hci hcs hcl hIs
      · refine LasersOK_firstCycle _ hcs ?_
        intro ht
        rw [hcl]
        rw [hci] at ht
        exact hIs.1 ht
    exact feedTail_total sb _ _ hIc

/-- Iterated feeding from a `LasersOK` state never panics. -/
theorem feedAll_total (l : List StatusBytes) :
    ∀ (a : StatusAccumulator) (st : Status), LasersOK a →
      ∃ r, feedAll l a st = some r := by
  induction l with
  | nil => intro a st _; exact ⟨(a, st), rfl⟩
  | cons sb rest ih =>
    intro a st hI
    obtain ⟨⟨a', st'⟩, hfeed, hI'⟩ := feed_total sb a st hI
    obtain ⟨r, hr⟩ := ih a' st' hI'
    refine ⟨r, ?_⟩
    unfold feedAll
    rw [hfeed]
    exact hr

/-- The default accumulator satisfies the invariant. -/
theorem LasersOK_accum0 : LasersOK accum0 := by
  constructor
  · intro ht
    exact absurd ht (by decide)
  · trivial

/-- C7: feeding the accumulator any sequence of status byte pairs from the
default state never panics (no out-of-bounds access and no failed
`assert_eq!` in `process_calib_db`), and no call to `feed` ever turns
`initialised` from `true` back to `false`. -/
theorem c7_feed_total_init_monotone :
    (∀ seq : List StatusBytes,
      (feedAll seq accum0 status0).isSome = true) ∧
    (∀ (sb : StatusBytes) (a : StatusAccumulator) (st : Status)
        (a' : StatusAccumulator) (st' : Status),
      feed sb a st = some (a', st') → a.init = true → a'.init = true) := by
  constructor
  · intro seq
    obtain ⟨r, hr⟩ := feedAll_total seq accum0 status0 LasersOK_accum0
    rw [hr]
    rfl
  · intro sb a st a' st' h ht
    rcases feed_init sb a st a' st' h with hsame | ⟨_, _, htrue⟩
    · rw [hsame, ht]
    · exact htrue

/-- Accumulator with `init` already latched. -/
def accum1 : StatusAccumulator := { accum0 with init := true }

/-- `accum1` after one 'H' byte at position 0. -/
def accum1' : StatusAccumulator :=
  { accum1 with dt := Function.update accum1.dt 3 9, cycle_pos := 1 }

/-- Witness for C7: a concrete feed sequence is processed without panic,
and a concrete feed on an initialised accumulator keeps `init` set. -/
theorem c7_feed_total_init_monotone_witness :
    (feedAll [⟨72, 9⟩, ⟨0, 0⟩] accum0 status0).isSome = true ∧
    accum1'.init = true :=
  ⟨c7_feed_total_init_monotone.1 [⟨72, 9⟩, ⟨0, 0⟩],
   c7_feed_total_init_monotone.2 ⟨72, 9⟩ accum1 status0 accum1' status0
     rfl rfl⟩
